import Mathlib

/-!
# flux-core: shmem connector, checkpoint timestamp formatting, shell doom plugin

A shallow embedding of

* `src/connectors/shmem/shmem.c` (`op_pollevents`, `op_recv`, `op_fini`, `connector_init`),
* `src/common/libkvs/kvs_checkpoint.c` (`kvs_checkpoint_lookup_get_formatted_timestamp`),
* `src/shell/doom.c` (`doom_task_exit`, `doom_notify_cb`),

and theorems about them.

Conventions.  A C string is a `List Char`, one element per `char`, without its
terminating NUL.  Pointers are natural numbers and `NULL` is `0`.  `errno` is a
natural number threaded through the code explicitly.  Library functions that
live outside the translated files (libc, libzmq, libflux) are fields of an
environment record: a failing call is `Except.error e` where `e` is the value it
leaves in `errno`.  Every call a function makes to such a library is appended to
a trace, so that statements about what the code does or does not invoke can be
made.
-/

namespace Flux

deriving instance DecidableEq for Except

/-! ## C strings -/

/-- A C string: its bytes, terminating NUL excluded. -/
abbrev CStr := List Char

/-- The NUL byte. -/
def NUL : Char := Char.ofNat 0

/-- Test `streq (a, b)` of ccan/str: `strcmp (a, b) == 0`. -/
def streq (a b : CStr) : Bool := a == b

/-- Test `strstarts (str, pre)` of ccan/str: `strncmp (str, pre, strlen (pre)) == 0`. -/
def strstarts (str pre : CStr) : Bool := pre.isPrefixOf str

/-- Model of `snprintf (buf, size, fmt, ...)` where `s` is the fully formatted output:
at most `size - 1` bytes of `s` are stored (nothing when `size = 0`, in which case the
buffer keeps `old`), and the return value is the length of `s`. -/
def snprintf (old : CStr) (size : Nat) (s : CStr) : CStr × Nat :=
  (if size = 0 then old else s.take (size - 1), s.length)

/-! ## errno values (Linux `errno.h`) -/

def ENOMEM : Nat := 12
def EFAULT : Nat := 14
def EINVAL : Nat := 22
def ENOTSOCK : Nat := 88
/-- On Linux `EWOULDBLOCK` is `EAGAIN`. -/
def EWOULDBLOCK : Nat := 11

/-! ## glibc argz vectors

`connector_init` tokenises the path with `argz_create_sep` and walks the result with
`argz_next`.  Both come from glibc (`string/argz-ctsep.c`, `string/argz-next.c`).  An
argz vector is a buffer of NUL-terminated entries; it is modelled by the buffer itself
(`List Char`, NULs included) and the entries are read off it by `argz_entries`. -/

/-- One iteration of the copy loop of glibc `argz_create_sep` on the byte `c` read at
`rp`, `buf` being what has been written so far between `*argz` and `wp`: a delimiter
ends the current entry when one is open (`wp > *argz && wp[-1] != 0`) and is dropped
otherwise (`--nlen`); every other byte is copied. -/
def argz_put (delim : Char) (c : Char) (buf : List Char) : List Char :=
  if c = delim then
    (if buf ≠ [] ∧ buf.getLast? ≠ some NUL then buf ++ [NUL] else buf)
  else buf ++ [c]

/-- The copy loop of glibc `argz_create_sep`, `do ... while (*rp++ != 0)`: the end of
the list stands for the terminating NUL of the C string, which is the last byte the
loop processes. -/
def argz_fill (delim : Char) : CStr → List Char → List Char
  | [], buf => argz_put delim NUL buf
  | c :: cs, buf =>
    if c = NUL then argz_put delim NUL buf
    else argz_fill delim cs (argz_put delim c buf)

/-- The `strlen` of the C string stored in a list: the bytes before the first NUL. -/
def strlen (s : CStr) : Nat := (s.takeWhile (fun c => c != NUL)).length

/-- glibc `argz_create_sep (string, delim, &argz, &len)`: `Except.error ENOMEM` when
`malloc` fails, otherwise the argz buffer (empty for the empty string); `len` is the
length of the returned buffer. -/
def argz_create_sep (malloc_ok : Bool) (string : CStr) (delim : Char) :
    Except Nat (List Char) :=
  if strlen string + 1 > 1 then
    (if malloc_ok then Except.ok (argz_fill delim string []) else Except.error ENOMEM)
  else Except.ok []

/-- The entries of an argz buffer, in the order `argz_next` visits them, starting
with `argz_next (argz, len, NULL)`: `cur` holds (reversed) the bytes of the entry
being read.  `argz_next` returns `NULL` exactly when the entries are exhausted. -/
def argz_entries_aux : List Char → List Char → List CStr
  | [], _ => []
  | c :: cs, cur =>
    if c = NUL then cur.reverse :: argz_entries_aux cs []
    else argz_entries_aux cs (c :: cur)

/-- Entries of an argz buffer. -/
def argz_entries (argz : List Char) : List CStr := argz_entries_aux argz []

/-- Tokenisation as `connector_init` performs it with glibc: `argz_create_sep`
followed by iteration with `argz_next`. -/
def glibc_tokens (malloc_ok : Bool) (path : CStr) (delim : Char) : Except Nat (List CStr) :=
  match argz_create_sep malloc_ok path delim with
  | Except.ok argz => Except.ok (argz_entries argz)
  | Except.error e => Except.error e

/-! ## The shmem connector (`src/connectors/shmem/shmem.c`) -/

/-- Socket options the connector passes to `zsetsockopt_int` / `zgetsockopt_int`. -/
inductive SockOpt
  | ZMQ_LINGER
  | ZMQ_SNDHWM
  | ZMQ_RCVHWM
  | ZMQ_EVENTS
  | ZMQ_FD
  deriving DecidableEq, Repr

/-- Library calls made by the connector, as recorded in the trace. -/
inductive Call
  | zmq_socket (zctx : Nat)
  | zsetsockopt_int (sock : Nat) (opt : SockOpt) (val : Int)
  | zmq_bind (sock : Nat) (endpoint : CStr)
  | zmq_connect (sock : Nat) (endpoint : CStr)
  | flux_handle_create (flags : Nat)
  | zmq_close (sock : Nat)
  | free_argz
  | free_ctx
  | zmq_poll
  | zmqutil_msg_recv (sock : Nat)
  deriving DecidableEq, Repr

/-- The library functions `connector_init` and `op_fini` call.  A failing call is
`Except.error e`, `e` being the `errno` it sets.  `zmq_close` and `free` give the value
they leave in `errno` when they write it (`none`: `errno` untouched). -/
structure Env where
  /-- Whether `calloc (1, sizeof (*ctx))` succeeds. -/
  calloc_ok : Bool
  /-- Function `argz_create_sep (path, sep, &argz, &len)`: the argz buffer or an error number. -/
  argz_create_sep : CStr → Char → Except Nat (List Char)
  /-- Function `sscanf (s, "%p", &p)`: the pointer read when the conversion succeeds
  (return value 1), `none` otherwise. -/
  sscanf_p : CStr → Option Nat
  /-- Function `zmq_socket (zctx, ZMQ_PAIR)`. -/
  zmq_socket : Nat → Except Nat Nat
  zsetsockopt_int : Nat → SockOpt → Int → Except Nat Unit
  zmq_bind : Nat → CStr → Except Nat Unit
  zmq_connect : Nat → CStr → Except Nat Unit
  /-- Function `flux_handle_create (ctx, &handle_ops, flags)`: the new `flux_t *`. -/
  flux_handle_create : Nat → Except Nat Nat
  zmq_close : Nat → Option Nat
  free : Option Nat

/-- The connector context `shmem_ctx_t`; `calloc` zeroes it. -/
structure shmem_ctx_t where
  zctx : Nat := 0
  sock : Nat := 0
  uuid : Option CStr := none
  h : Nat := 0
  argz : List Char := []
  endpoint : CStr := []
  deriving DecidableEq, Repr

/-- The part of the process state the connector reads and writes: `errno` and the
trace of library calls made so far. -/
structure St where
  errno : Nat
  trace : List Call
  deriving DecidableEq, Repr

/-- What a call of `connector_init` leaves behind: the handle returned (`none` for
`NULL`), `errno` and the trace. -/
structure InitResult where
  handle : Option Nat
  errno : Nat
  trace : List Call
  deriving DecidableEq, Repr

/-- Function `op_fini`: `zmq_close (ctx->sock); free (ctx->argz); free (ctx);`. -/
def op_fini (env : Env) (ctx : shmem_ctx_t) (st : St) : St :=
  let st1 : St := ⟨(env.zmq_close ctx.sock).getD st.errno, st.trace ++ [Call.zmq_close ctx.sock]⟩
  let st2 : St := ⟨env.free.getD st1.errno, st1.trace ++ [Call.free_argz]⟩
  ⟨env.free.getD st2.errno, st2.trace ++ [Call.free_ctx]⟩

/-- The `error:` label of `connector_init`:
`if (ctx) { saved_errno = errno; op_fini (ctx); errno = saved_errno; } return NULL;`. -/
def connector_init_error (env : Env) (ctx : Option shmem_ctx_t) (st : St) : InitResult :=
  match ctx with
  | none => ⟨none, st.errno, st.trace⟩
  | some c =>
    let saved_errno := st.errno
    let st1 := op_fini env c st
    let st2 : St := ⟨saved_errno, st1.trace⟩
    ⟨none, st2.errno, st2.trace⟩

/-- The option loop of `connector_init`,
`while ((item = argz_next (ctx->argz, ctx->argz_len, item)))`, over the entries that
follow the first: the state is `(bind_socket, ctx->zctx)`, and `none` is the
`errno = EINVAL; goto error;` exit. -/
def parse_items (env : Env) : List CStr → Bool × Nat → Option (Bool × Nat)
  | [], acc => some acc
  | item :: rest, (bind_socket, zctx) =>
    if streq item "bind".toList then parse_items env rest (true, zctx)
    else if streq item "connect".toList then parse_items env rest (false, zctx)
    else if strstarts item "zctx=".toList then
      match env.sscanf_p (item.drop 5) with
      | some p => parse_items env rest (bind_socket, p)
      | none => none
    else none

/-- The endpoint `connector_init` builds:
`snprintf (ctx->endpoint, sizeof (ctx->endpoint), "inproc://%s", ctx->uuid)` with
`char endpoint[128]`, which `calloc` left empty. -/
def mk_endpoint (uuid : CStr) : CStr :=
  (snprintf [] 128 ("inproc://".toList ++ uuid)).1

/-- Second half of `connector_init`, from `zmq_socket` to the return of the handle. -/
def connector_init_open (env : Env) (ctx : shmem_ctx_t) (uuid : CStr) (bind_socket : Bool)
    (flags : Nat) (st : St) : InitResult :=
  let st : St := ⟨st.errno, st.trace ++ [Call.zmq_socket ctx.zctx]⟩
  match env.zmq_socket ctx.zctx with
  | Except.error e => connector_init_error env (some ctx) ⟨e, st.trace⟩
  | Except.ok sock =>
    let ctx := { ctx with sock := sock }
    let st : St := ⟨st.errno, st.trace ++ [Call.zsetsockopt_int sock SockOpt.ZMQ_LINGER 5]⟩
    match env.zsetsockopt_int sock SockOpt.ZMQ_LINGER 5 with
    | Except.error e => connector_init_error env (some ctx) ⟨e, st.trace⟩
    | Except.ok _ =>
      let st : St := ⟨st.errno, st.trace ++ [Call.zsetsockopt_int sock SockOpt.ZMQ_SNDHWM 0]⟩
      match env.zsetsockopt_int sock SockOpt.ZMQ_SNDHWM 0 with
      | Except.error e => connector_init_error env (some ctx) ⟨e, st.trace⟩
      | Except.ok _ =>
        let st : St := ⟨st.errno, st.trace ++ [Call.zsetsockopt_int sock SockOpt.ZMQ_RCVHWM 0]⟩
        match env.zsetsockopt_int sock SockOpt.ZMQ_RCVHWM 0 with
        | Except.error e => connector_init_error env (some ctx) ⟨e, st.trace⟩
        | Except.ok _ =>
          let ctx := { ctx with endpoint := mk_endpoint uuid }
          let st : St := ⟨st.errno, st.trace ++
            [if bind_socket then Call.zmq_bind sock ctx.endpoint
             else Call.zmq_connect sock ctx.endpoint]⟩
          match (if bind_socket then env.zmq_bind sock ctx.endpoint
                 else env.zmq_connect sock ctx.endpoint) with
          | Except.error e => connector_init_error env (some ctx) ⟨e, st.trace⟩
          | Except.ok _ =>
            let st : St := ⟨st.errno, st.trace ++ [Call.flux_handle_create flags]⟩
            match env.flux_handle_create flags with
            | Except.error e => connector_init_error env (some ctx) ⟨e, st.trace⟩
            | Except.ok h => ⟨some h, st.errno, st.trace⟩

/-- Function `connector_init (path, flags, errp)`; `path = none` is a `NULL` path,
`errno` is the value of `errno` at entry, and the trace of the result lists the calls
this invocation makes. -/
def connector_init (env : Env) (path : Option CStr) (flags : Nat) (errno : Nat) : InitResult :=
  let st : St := ⟨errno, []⟩
  match path with
  | none => connector_init_error env none ⟨EINVAL, st.trace⟩
  | some path =>
    if env.calloc_ok = false then connector_init_error env none ⟨ENOMEM, st.trace⟩
    else
      let ctx : shmem_ctx_t := {}
      match env.argz_create_sep path '&' with
      | Except.error e => connector_init_error env (some ctx) ⟨e, st.trace⟩
      | Except.ok argz =>
        let ctx := { ctx with argz := argz }
        match argz_entries argz with
        | [] => connector_init_error env (some ctx) ⟨EINVAL, st.trace⟩
        | uuid :: items =>
          let ctx := { ctx with uuid := some uuid }
          match parse_items env items (false, ctx.zctx) with
          | none => connector_init_error env (some ctx) ⟨EINVAL, st.trace⟩
          | some (bind_socket, zctx) =>
            connector_init_open env { ctx with zctx := zctx } uuid bind_socket flags st

/-! ### A concrete environment: glibc and libzmq -/

/-- Value of a hexadecimal digit. -/
def hex_digit (c : Char) : Option Nat :=
  if '0' ≤ c ∧ c ≤ '9' then some (c.toNat - '0'.toNat)
  else if 'a' ≤ c ∧ c ≤ 'f' then some (c.toNat - 'a'.toNat + 10)
  else if 'A' ≤ c ∧ c ≤ 'F' then some (c.toNat - 'A'.toNat + 10)
  else none

/-- Reads the longest run of hexadecimal digits at the head of `s`, continuing the
number `acc`; `seen` tells whether a digit has been read. -/
def read_hex : CStr → Nat → Bool → Option Nat
  | [], acc, seen => if seen then some acc else none
  | c :: cs, acc, seen =>
    match hex_digit c with
    | some d => read_hex cs (16 * acc + d) true
    | none => if seen then some acc else none

/-- A reader for `sscanf (s, "%p", &p)` on the pointers `printf ("%p")` writes: `(nil)`
for `NULL`, otherwise hexadecimal digits with an optional `0x`. -/
def sscanf_p (s : CStr) : Option Nat :=
  if strstarts s "(nil)".toList then some 0
  else if strstarts s "0x".toList then
    (match read_hex (s.drop 2) 0 false with
     | some p => some p
     | none => some 0)
  else read_hex s 0 false

/-- The environment of a process linked against glibc and libzmq in which no call
fails for lack of resources: `zmq_socket` refuses a `NULL` context with `EFAULT`,
`zmq_close (NULL)` sets `ENOTSOCK`, sockets are numbered after their context and the
handle after the flags. -/
def libzmq_env : Env where
  calloc_ok := true
  argz_create_sep := argz_create_sep true
  sscanf_p := sscanf_p
  zmq_socket := fun zctx => if zctx = 0 then Except.error EFAULT else Except.ok (zctx + 1)
  zsetsockopt_int := fun _ _ _ => Except.ok ()
  zmq_bind := fun _ _ => Except.ok ()
  zmq_connect := fun _ _ => Except.ok ()
  flux_handle_create := fun flags => Except.ok (1000 + flags)
  zmq_close := fun sock => if sock = 0 then some ENOTSOCK else none
  free := none

/-- The tokens of a string separated by `sep`, read literally: every separator ends
one token and starts the next, so that a separator at the start of the string, two
separators in a row and a separator at the end each give an empty token. -/
def sep_tokens (sep : Char) : CStr → List CStr
  | [] => [[]]
  | c :: cs =>
    if c = sep then [] :: sep_tokens sep cs
    else
      match sep_tokens sep cs with
      | [] => [[c]]
      | t :: ts => (c :: t) :: ts

/-- What is kept of the literal tokens: the tokens that are not empty, followed by one
empty token when the last literal token is empty (the string is empty or ends with the
separator). -/
def kept_tokens (toks : List CStr) : List CStr :=
  toks.filter (fun t => t ≠ []) ++ (if toks.getLast? = some [] then [[]] else [])

/-- The tokens of an address path, in terms of its literal `&`-separated tokens: none
for the empty path, otherwise the tokens `kept_tokens` keeps.  Separators at the start of
the path and repeated separators thus give no token, and a separator at the end gives
one empty token. -/
def path_tokens (path : CStr) : List CStr :=
  if path = [] then [] else kept_tokens (sep_tokens '&' path)

/-- The literal tokens of what is left to read, the first of them continuing the entry
`cur` that is being written. -/
def join_tokens (cur : CStr) : List CStr → List CStr
  | [] => [cur]
  | t :: ts => (cur ++ t) :: ts

/-- The argz buffer that holds the given entries: each entry followed by a NUL. -/
def argz_encode : List CStr → List Char
  | [] => []
  | e :: es => e ++ NUL :: argz_encode es

/-- A role option: `bind` or `connect`. -/
def is_role (item : CStr) : Bool := item == "bind".toList || item == "connect".toList

/-- The last role option among the entries that follow the name, if there is one. -/
def last_role (items : List CStr) : Option CStr := (items.filter is_role).getLast?

/-- A call that takes a role at the rendezvous point: `zmq_bind` or `zmq_connect`. -/
def Call.is_rendezvous : Call → Bool
  | Call.zmq_bind _ _ => true
  | Call.zmq_connect _ _ => true
  | _ => false

/-- The call by which `connector_init` takes its role: `zmq_bind` on the endpoint when
`bind_socket` is set, `zmq_connect` on it otherwise. -/
def role_call (bind_socket : Bool) (sock : Nat) (uuid : CStr) : Call :=
  if bind_socket then Call.zmq_bind sock (mk_endpoint uuid)
  else Call.zmq_connect sock (mk_endpoint uuid)

/-- A call that creates or attaches a channel endpoint: `zmq_socket`, `zmq_bind` or
`zmq_connect`. -/
def Call.opens_endpoint : Call → Bool
  | Call.zmq_socket _ => true
  | Call.zmq_bind _ _ => true
  | Call.zmq_connect _ _ => true
  | _ => false

/-- The steps of `connector_init` as the return contract lists them, each failing with
its own error code and none of them followed by any cleanup: null path, allocation,
tokenising, name and option parsing, socket creation and option setting, bind or
connect, handle creation. -/
def connector_init_steps (env : Env) (path : Option CStr) (flags : Nat) : Except Nat Nat :=
  match path with
  | none => Except.error EINVAL
  | some path =>
    if env.calloc_ok = false then Except.error ENOMEM
    else
      match env.argz_create_sep path '&' with
      | Except.error e => Except.error e
      | Except.ok argz =>
        match argz_entries argz with
        | [] => Except.error EINVAL
        | uuid :: items =>
          match parse_items env items (false, 0) with
          | none => Except.error EINVAL
          | some (bind_socket, zctx) =>
            match env.zmq_socket zctx with
            | Except.error e => Except.error e
            | Except.ok sock =>
              match env.zsetsockopt_int sock SockOpt.ZMQ_LINGER 5 with
              | Except.error e => Except.error e
              | Except.ok _ =>
                match env.zsetsockopt_int sock SockOpt.ZMQ_SNDHWM 0 with
                | Except.error e => Except.error e
                | Except.ok _ =>
                  match env.zsetsockopt_int sock SockOpt.ZMQ_RCVHWM 0 with
                  | Except.error e => Except.error e
                  | Except.ok _ =>
                    match (if bind_socket then env.zmq_bind sock (mk_endpoint uuid)
                           else env.zmq_connect sock (mk_endpoint uuid)) with
                    | Except.error e => Except.error e
                    | Except.ok _ => env.flux_handle_create flags

/-! ### `op_recv` -/

/-- The library functions `op_recv` calls: `zmq_poll (&zp, 1, 0L)` gives its return
value and the `errno` it sets, if it sets one; `zmqutil_msg_recv (sock)` gives the
message received or fails with an error number. -/
structure RecvEnv where
  zmq_poll : Int × Option Nat
  zmqutil_msg_recv : Nat → Except Nat Nat

/-- What a call of `op_recv` leaves behind: the message returned (`none` for `NULL`),
`errno` and the calls made. -/
structure RecvResult where
  msg : Option Nat
  errno : Nat
  trace : List Call
  deriving DecidableEq, Repr

/-- Function `op_recv (impl, flags)`.  `FLUX_O_NONBLOCK` is the flag bit of
`flux/core.h`, taken as a parameter; `errno` is the value of `errno` at entry. -/
def op_recv (env : RecvEnv) (FLUX_O_NONBLOCK : Nat) (ctx : shmem_ctx_t) (flags : Nat)
    (errno : Nat) : RecvResult :=
  let recv (errno : Nat) (trace : List Call) : RecvResult :=
    match env.zmqutil_msg_recv ctx.sock with
    | Except.ok msg => ⟨some msg, errno, trace ++ [Call.zmqutil_msg_recv ctx.sock]⟩
    | Except.error e => ⟨none, e, trace ++ [Call.zmqutil_msg_recv ctx.sock]⟩
  if flags &&& FLUX_O_NONBLOCK ≠ 0 then
    let n := env.zmq_poll.1
    let errno := env.zmq_poll.2.getD errno
    if n ≤ 0 then
      (if n = 0 then ⟨none, EWOULDBLOCK, [Call.zmq_poll]⟩
       else ⟨none, errno, [Call.zmq_poll]⟩)
    else recv errno [Call.zmq_poll]
  else recv errno []

/-! ### `op_pollevents` -/

/-- The event bits `op_pollevents` translates between: those of `zmq.h` and those of
`flux/core.h`, taken as parameters. -/
structure PollBits where
  ZMQ_POLLIN : Nat
  ZMQ_POLLOUT : Nat
  ZMQ_POLLERR : Nat
  FLUX_POLLIN : Nat
  FLUX_POLLOUT : Nat
  FLUX_POLLERR : Nat

/-- The value of a C `int` whose 32-bit pattern is `n`. -/
def int_of_bits (n : Nat) : Int :=
  if n % 2 ^ 32 < 2 ^ 31 then ((n % 2 ^ 32 : Nat) : Int) else ((n % 2 ^ 32 : Nat) : Int) - 2 ^ 32

/-- Function `op_pollevents (impl)`.  `zgetsockopt_int (sock, option, &e)` is given by
`getopt`, the value read being the bit pattern of the `int e`. -/
def op_pollevents (k : PollBits) (getopt : Nat → SockOpt → Except Nat Nat)
    (ctx : shmem_ctx_t) : Int :=
  match getopt ctx.sock SockOpt.ZMQ_EVENTS with
  | Except.error _ => -1
  | Except.ok e =>
    let revents := 0
    let revents := if e &&& k.ZMQ_POLLIN ≠ 0 then revents ||| k.FLUX_POLLIN else revents
    let revents := if e &&& k.ZMQ_POLLOUT ≠ 0 then revents ||| k.FLUX_POLLOUT else revents
    let revents := if e &&& k.ZMQ_POLLERR ≠ 0 then revents ||| k.FLUX_POLLERR else revents
    int_of_bits revents

/-- The event bits of `zmq.h` and of libflux `handle.h`: 1, 2 and 4 on both sides. -/
def poll_bits : PollBits := ⟨1, 2, 4, 1, 2, 4⟩

/-- A receive environment in which nothing is pending: the zero-timeout poll reports
no ready item, and a blocking receive would deliver message 42. -/
def idle_recv_env : RecvEnv := ⟨(0, none), fun _ => Except.ok 42⟩

/-! ## Checkpoint timestamps (`src/common/libkvs/kvs_checkpoint.c`) -/

/-- What `flux_rpc_get_unpack (f, "{s:{s:i s?f}}", "value", "version", &version,
"timestamp", &timestamp)` reads from a lookup response: the version, and the timestamp
when the response carries one.  `D` stands for the C type `double`. -/
structure checkpoint_value (D : Type) where
  version : Int
  timestamp : Option D

/-- The libc operations on time the formatter relies on: the double `0.`, the
conversion `time_t sec = timestamp`, and the text `gmtime_r` followed by
`strftime (.., "%FT%T", &tm)` produces for a given `time_t`. -/
structure TimeEnv (D : Type) where
  zero : D
  to_time_t : D → Int
  strftime_FT : Int → CStr

/-- Model of `strftime (buf, size, fmt, &tm)` where `s` is the formatted text: when `s`
and its NUL fit in `size` bytes it is stored and its length returned, otherwise the
return value is 0 (the contents of the buffer are then unspecified in C; the model
keeps `old`). -/
def strftime (old : CStr) (size : Nat) (s : CStr) : CStr × Nat :=
  if s.length + 1 ≤ size then (s, s.length) else (old, 0)

/-- What `kvs_checkpoint_lookup_get_formatted_timestamp` leaves behind: its return
value, `errno`, and the contents of the buffer (`none` when `buf` is `NULL`). -/
structure FormatResult where
  ret : Int
  errno : Nat
  buf : Option CStr
  deriving DecidableEq, Repr

/-- Function `kvs_checkpoint_lookup_get_formatted_timestamp (f, buf, len)`.  `f = none`
is a `NULL` future, otherwise `f` holds the outcome of `flux_rpc_get_unpack`;
`buf = none` is a `NULL` buffer, otherwise `buf` holds the contents at entry. -/
def kvs_checkpoint_lookup_get_formatted_timestamp {D : Type} (env : TimeEnv D)
    (f : Option (Except Nat (checkpoint_value D))) (buf : Option CStr) (len : Nat)
    (errno : Nat) : FormatResult :=
  match f, buf with
  | none, _ => ⟨-1, EINVAL, buf⟩
  | some _, none => ⟨-1, EINVAL, none⟩
  | some (Except.error e), some old => ⟨-1, e, some old⟩
  | some (Except.ok v), some old =>
    let timestamp := v.timestamp.getD env.zero
    if v.version ≠ 0 ∧ v.version ≠ 1 then ⟨-1, EINVAL, some old⟩
    else if v.version = 1 then
      let sec := env.to_time_t timestamp
      let r := strftime old len (env.strftime_FT sec)
      if r.2 = 0 then ⟨-1, EINVAL, some r.1⟩ else ⟨0, errno, some r.1⟩
    else
      let r := snprintf old len "N/A".toList
      if r.2 ≥ len then ⟨-1, EINVAL, some r.1⟩ else ⟨0, errno, some r.1⟩

/-- Decimal digit `n % 10` as a character. -/
def digit (n : Nat) : Char := Char.ofNat (48 + n % 10)

/-- Two decimal digits, zero padded. -/
def digits2 (n : Nat) : CStr := [digit (n / 10), digit n]

/-- Four decimal digits, zero padded. -/
def digits4 (n : Nat) : CStr := [digit (n / 1000), digit (n / 100), digit (n / 10), digit n]

/-- The text of `strftime ("%FT%T")` applied to `gmtime_r (&sec)` for the years 1000
to 9999: proleptic Gregorian date of the day `sec / 86400` after 1970-01-01, then the
time of day. -/
def strftime_FT_utc (sec : Int) : CStr :=
  let days := sec / 86400
  let rem := (sec % 86400).toNat
  let z := days + 719468
  let era := z / 146097
  let doe := (z - era * 146097).toNat
  let yoe := (doe - doe / 1460 + doe / 36524 - doe / 146096) / 365
  let doy := doe - (365 * yoe + yoe / 4 - yoe / 100)
  let mp := (5 * doy + 2) / 153
  let d := doy - (153 * mp + 2) / 5 + 1
  let m := if mp < 10 then mp + 3 else mp - 9
  let y := (era * 400 + (yoe : Int) + (if m ≤ 2 then 1 else 0)).toNat
  digits4 y ++ ['-'] ++ digits2 m ++ ['-'] ++ digits2 d ++ ['T'] ++
    digits2 (rem / 3600) ++ [':'] ++ digits2 (rem % 3600 / 60) ++ [':'] ++ digits2 (rem % 60)

/-- A time environment in which a `double` is a rational number: conversion to
`time_t` truncates toward zero, and times are formatted in UTC. -/
def utc_env : TimeEnv Rat where
  zero := 0
  to_time_t := fun q => if 0 ≤ q then Int.floor q else Int.ceil q
  strftime_FT := strftime_FT_utc

/-! ## First task exit (`src/shell/doom.c`) -/

/-- The fields of `struct shell_doom` the callbacks read and write: the rank of the
shell (`doom->shell->info->shell_rank`) and the `done` flag. -/
structure shell_doom where
  shell_rank : Nat
  done : Bool
  deriving DecidableEq, Repr

/-- What the callbacks do to the outside: post the task-exit event to the exec
eventlog (`doom_post`) or notify shell 0 (`doom_notify`), with the task info. -/
inductive DoomAction
  | doom_post (task_info : Nat)
  | doom_notify (task_info : Nat)
  deriving DecidableEq, Repr

/-- Function `doom_notify_cb`: `unpacked` is what `flux_request_unpack (msg, NULL, "o",
&task_info)` gives, `none` when it fails.  The result is `none` when
`assert (doom->shell->info->shell_rank == 0)` fails. -/
def doom_notify_cb (doom : shell_doom) (unpacked : Option Nat) :
    Option (shell_doom × List DoomAction) :=
  if doom.shell_rank ≠ 0 then none
  else if doom.done then some (doom, [])
  else
    match unpacked with
    | none => some (doom, [])
    | some task_info => some ({ doom with done := true }, [DoomAction.doom_post task_info])

/-- Function `doom_task_exit`: `found` tells whether the shell, the `doom` aux item
and the current task are all found, `unpacked` is what
`flux_shell_task_info_unpack (task, "o", &task_info)` gives, `none` when it fails.
The result carries the return value. -/
def doom_task_exit (doom : shell_doom) (found : Bool) (unpacked : Option Nat) :
    Int × shell_doom × List DoomAction :=
  if found = false then (-1, doom, [])
  else if doom.done = false then
    match unpacked with
    | none => (-1, doom, [])
    | some task_info =>
      if doom.shell_rank = 0 then
        (0, { doom with done := true }, [DoomAction.doom_post task_info])
      else
        (0, { doom with done := true }, [DoomAction.doom_notify task_info])
  else (0, doom, [])

/-- A callback invocation on one `shell_doom`. -/
inductive DoomEvent
  | task_exit (found : Bool) (unpacked : Option Nat)
  | notify (unpacked : Option Nat)
  deriving DecidableEq, Repr

/-- The task info an invocation unpacks, when it gets as far as unpacking it and the
unpacking succeeds. -/
def DoomEvent.unpacks : DoomEvent → Option Nat
  | DoomEvent.task_exit found unpacked => if found then unpacked else none
  | DoomEvent.notify unpacked => unpacked

/-- One callback invocation: the new state and the actions taken; `none` when an
assertion fails. -/
def doom_step (doom : shell_doom) : DoomEvent → Option (shell_doom × List DoomAction)
  | DoomEvent.task_exit found unpacked =>
    some ((doom_task_exit doom found unpacked).2.1, (doom_task_exit doom found unpacked).2.2)
  | DoomEvent.notify unpacked => doom_notify_cb doom unpacked

/-- A sequence of callback invocations on one `shell_doom`: the final state and all
the actions taken, in order. -/
def doom_run (doom : shell_doom) : List DoomEvent → Option (shell_doom × List DoomAction)
  | [] => some (doom, [])
  | ev :: evs =>
    match doom_step doom ev with
    | none => none
    | some (doom1, acts1) =>
      match doom_run doom1 evs with
      | none => none
      | some (doom2, acts2) => some (doom2, acts1 ++ acts2)

/-- The action a shell of the given rank takes on its first task exit: shell 0 posts
the event, the others notify shell 0. -/
def first_exit_action (shell_rank : Nat) (task_info : Nat) : DoomAction :=
  if shell_rank = 0 then DoomAction.doom_post task_info else DoomAction.doom_notify task_info

/-- What a run of callbacks is expected to do from a given `done` flag: nothing once
done, otherwise the action of the first invocation that unpacks its task info. -/
def expected_actions (shell_rank : Nat) (done : Bool) (evs : List DoomEvent) :
    List DoomAction :=
  if done then []
  else
    match evs.findSome? DoomEvent.unpacks with
    | some task_info => [first_exit_action shell_rank task_info]
    | none => []

/-- A `task_exit` callback, as opposed to a notification. -/
def DoomEvent.is_task_exit : DoomEvent → Bool
  | DoomEvent.task_exit _ _ => true
  | DoomEvent.notify _ => false

/-! ## Theorems -/

theorem streq_iff (a b : CStr) : streq a b = true ↔ a = b := by
  simp [streq]

theorem strstarts_iff (a b : CStr) : strstarts a b = true ↔ b <+: a := by
  simp [strstarts]

/-- The option loop fails as soon as the entries hold one it rejects: an entry that
is neither `bind` nor `connect` and that, if it starts with `zctx=`, carries a value
`sscanf` cannot read. -/
theorem parse_items_rejected (env : Env) (items : List CStr) (acc : Bool × Nat)
    (h : ∃ item ∈ items, item ≠ "bind".toList ∧ item ≠ "connect".toList ∧
      ("zctx=".toList <+: item → env.sscanf_p (item.drop 5) = none)) :
    parse_items env items acc = none := by
  induction items generalizing acc with
  | nil => simp at h
  | cons item rest ih =>
    obtain ⟨b, z⟩ := acc
    obtain ⟨x, hx, hb, hcn, hz⟩ := h
    unfold parse_items
    by_cases h1 : streq item "bind".toList = true
    · rw [if_pos h1]
      apply ih
      rcases List.mem_cons.mp hx with rfl | hx
      · exact absurd ((streq_iff _ _).mp h1) hb
      · exact ⟨x, hx, hb, hcn, hz⟩
    · rw [if_neg h1]
      by_cases h2 : streq item "connect".toList = true
      · rw [if_pos h2]
        apply ih
        rcases List.mem_cons.mp hx with rfl | hx
        · exact absurd ((streq_iff _ _).mp h2) hcn
        · exact ⟨x, hx, hb, hcn, hz⟩
      · rw [if_neg h2]
        by_cases h3 : strstarts item "zctx=".toList = true
        · rw [if_pos h3]
          cases hp : env.sscanf_p (item.drop 5) with
          | none => rfl
          | some p =>
            simp only []
            apply ih
            rcases List.mem_cons.mp hx with rfl | hx
            · rw [hz ((strstarts_iff _ _).mp h3)] at hp
              exact absurd hp (by simp)
            · exact ⟨x, hx, hb, hcn, hz⟩
        · rw [if_neg h3]

/-- The option loop leaves the context reference alone when every entry is a role. -/
theorem parse_items_roles (env : Env) (items : List CStr) (b0 : Bool) (z0 : Nat)
    (h : ∀ item ∈ items, item = "bind".toList ∨ item = "connect".toList) :
    ∃ b, parse_items env items (b0, z0) = some (b, z0) := by
  induction items generalizing b0 with
  | nil => exact ⟨b0, rfl⟩
  | cons item rest ih =>
    have hr : ∀ x ∈ rest, x = "bind".toList ∨ x = "connect".toList :=
      fun x hx => h x (List.mem_cons_of_mem _ hx)
    rcases h item (List.mem_cons_self _ _) with hi | hi
    · obtain ⟨b, hb⟩ := ih true hr
      refine ⟨b, ?_⟩
      subst hi
      rw [← hb]
      rfl
    · obtain ⟨b, hb⟩ := ih false hr
      refine ⟨b, ?_⟩
      subst hi
      rw [← hb]
      rfl

theorem argz_encode_append (es fs : List CStr) :
    argz_encode (es ++ fs) = argz_encode es ++ argz_encode fs := by
  induction es with
  | nil => rfl
  | cons e es ih => simp [argz_encode, ih]

/-- A buffer of complete entries is empty or ends with a NUL. -/
theorem argz_encode_last (es : List CStr) :
    argz_encode es = [] ∨ (argz_encode es).getLast? = some NUL := by
  induction es with
  | nil => exact Or.inl rfl
  | cons e es ih =>
    right
    rcases ih with h | h
    · simp [argz_encode, h]
    · simp only [argz_encode, List.getLast?_append_of_ne_nil _ (List.cons_ne_nil _ _)]
      rw [List.getLast?_cons, h]
      rfl

/-- An entry is open at the end of the buffer exactly when bytes follow the last NUL. -/
theorem argz_open_iff (es : List CStr) (cur : CStr) (hcur : NUL ∉ cur) :
    (argz_encode es ++ cur ≠ [] ∧ (argz_encode es ++ cur).getLast? ≠ some NUL) ↔ cur ≠ [] := by
  constructor
  · rintro ⟨h1, h2⟩ hc
    subst hc
    rw [List.append_nil] at h1 h2
    rcases argz_encode_last es with h | h
    · exact h1 h
    · exact h2 h
  · intro hc
    refine ⟨by simp [hc], ?_⟩
    intro h
    have hm := List.mem_of_getLast?_eq_some h
    rw [List.getLast?_append_of_ne_nil _ hc] at h
    exact hcur (List.mem_of_getLast?_eq_some h)

/-- The literal tokens of a string are never none. -/
theorem sep_tokens_ne_nil (sep : Char) (s : CStr) : sep_tokens sep s ≠ [] := by
  cases s with
  | nil => simp [sep_tokens]
  | cons c cs =>
    unfold sep_tokens
    split
    · simp
    · split <;> simp

/-- The bytes of the literal tokens are bytes of the string. -/
theorem mem_sep_tokens (sep : Char) (s : CStr) :
    ∀ t ∈ sep_tokens sep s, ∀ x ∈ t, x ∈ s := by
  induction s with
  | nil => simp [sep_tokens]
  | cons c cs ih =>
    intro t ht x hx
    unfold sep_tokens at ht
    split at ht
    · rcases List.mem_cons.mp ht with rfl | ht
      · simp at hx
      · exact List.mem_cons_of_mem _ (ih t ht x hx)
    · split at ht
      · simp at ht
        subst ht
        simp at hx
        simp [hx]
      · rename_i t0 ts heq
        rcases List.mem_cons.mp ht with rfl | ht
        · rcases List.mem_cons.mp hx with rfl | hx
          · simp
          · exact List.mem_cons_of_mem _ (ih t0 (by rw [heq]; simp) x hx)
        · exact List.mem_cons_of_mem _ (ih t (by rw [heq]; simp [ht]) x hx)

theorem join_tokens_nil (toks : List CStr) (h : toks ≠ []) : join_tokens [] toks = toks := by
  cases toks with
  | nil => exact absurd rfl h
  | cons t ts => rfl

/-- The copy loop of glibc, on a buffer of complete entries `es` followed by the open
entry `cur`, produces the buffer of `es` followed by what is kept of the literal tokens
of the rest of the string, the first of them continuing `cur`. -/
theorem argz_fill_encode (s : CStr) (hs : NUL ∉ s) (es : List CStr) (cur : CStr)
    (hcur : NUL ∉ cur) :
    argz_fill '&' s (argz_encode es ++ cur) =
      argz_encode (es ++ kept_tokens (join_tokens cur (sep_tokens '&' s))) := by
  have hne : ¬ (NUL = '&') := by decide
  have hnul : ∀ (es : List CStr) (cur : CStr),
      argz_put '&' NUL (argz_encode es ++ cur) =
        argz_encode (es ++ kept_tokens (join_tokens cur [[]])) := by
    intro es cur
    have hk : kept_tokens (join_tokens cur [[]]) = [cur] := by
      by_cases hc : cur = []
      · subst hc
        simp [kept_tokens, join_tokens]
      · simp [kept_tokens, join_tokens, hc]
    rw [hk, argz_encode_append]
    simp [argz_put, hne, argz_encode]
  induction s generalizing es cur with
  | nil =>
    show argz_put '&' NUL (argz_encode es ++ cur) = _
    exact hnul es cur
  | cons c cs ih =>
    have hc0 : c ≠ NUL := fun h => hs (by simp [h])
    have hcs : NUL ∉ cs := fun h => hs (List.mem_cons_of_mem _ h)
    unfold argz_fill
    rw [if_neg hc0]
    have htne := sep_tokens_ne_nil '&' cs
    by_cases hamp : c = '&'
    · subst hamp
      have hst : sep_tokens '&' ('&' :: cs) = [] :: sep_tokens '&' cs := by
        simp [sep_tokens]
      rw [hst]
      obtain ⟨t, ts, hts⟩ := List.exists_cons_of_ne_nil htne
      by_cases hc : cur = []
      · subst hc
        have hput : argz_put '&' '&' (argz_encode es ++ []) = argz_encode es ++ [] := by
          have := (argz_open_iff es [] (by simp)).not.mpr (by simp)
          simp only [argz_put, if_true]
          rw [if_neg this]
        rw [hput, ih hcs es [] (by simp), join_tokens_nil _ htne]
        congr 1
        congr 1
        rw [hts]
        simp [kept_tokens, join_tokens]
      · have hput : argz_put '&' '&' (argz_encode es ++ cur) =
            argz_encode (es ++ [cur]) ++ [] := by
          have := (argz_open_iff es cur hcur).mpr hc
          simp only [argz_put, if_true]
          rw [if_pos this, argz_encode_append]
          simp [argz_encode]
        rw [hput, ih hcs (es ++ [cur]) [] (by simp), join_tokens_nil _ htne]
        congr 1
        rw [hts]
        simp [kept_tokens, join_tokens, hc]
    · have hput : argz_put '&' c (argz_encode es ++ cur) = argz_encode es ++ (cur ++ [c]) := by
        simp [argz_put, hamp]
      have hcur1 : NUL ∉ cur ++ [c] := by
        simp only [List.mem_append, List.mem_singleton, not_or]
        exact ⟨hcur, fun h => hc0 h.symm⟩
      rw [hput, ih hcs es (cur ++ [c]) hcur1]
      obtain ⟨t, ts, hts⟩ := List.exists_cons_of_ne_nil htne
      have hst : sep_tokens '&' (c :: cs) = (c :: t) :: ts := by
        simp [sep_tokens, hamp, hts]
      rw [hst, hts]
      simp [join_tokens]

/-- Reading one entry off a buffer. -/
theorem argz_entries_aux_entry (e : CStr) (he : NUL ∉ e) (rest cur : List Char) :
    argz_entries_aux (e ++ NUL :: rest) cur = (cur.reverse ++ e) :: argz_entries_aux rest [] := by
  induction e generalizing cur with
  | nil => simp [argz_entries_aux]
  | cons c cs ih =>
    have hc0 : c ≠ NUL := fun h => he (by simp [h])
    have hcs : NUL ∉ cs := fun h => he (List.mem_cons_of_mem _ h)
    rw [List.cons_append]
    simp only [argz_entries_aux, if_neg hc0]
    rw [ih hcs]
    simp

/-- The entries of the buffer that holds `es` are `es`. -/
theorem argz_entries_encode (es : List CStr) (hes : ∀ e ∈ es, NUL ∉ e) :
    argz_entries (argz_encode es) = es := by
  induction es with
  | nil => rfl
  | cons e es ih =>
    have h1 := argz_entries_aux_entry e (hes e (List.mem_cons_self _ _)) (argz_encode es) []
    have h2 := ih (fun x hx => hes x (List.mem_cons_of_mem _ hx))
    unfold argz_entries at h2 ⊢
    unfold argz_encode
    rw [h1, h2]
    simp

/-- The entries glibc produces from a path are its tokens in the sense of
`path_tokens`: the literal tokens that are not empty, and one empty token for a
separator at the end. -/
theorem glibc_tokens_eq (path : CStr) (hp : NUL ∉ path) :
    glibc_tokens true path '&' = Except.ok (path_tokens path) := by
  unfold glibc_tokens argz_create_sep path_tokens
  by_cases h : path = []
  · subst h
    simp [strlen, argz_entries, argz_entries_aux]
  · have hl : strlen path = path.length := by
      unfold strlen
      congr 1
      rw [List.takeWhile_eq_self_iff]
      intro x hx
      simp only [bne_iff_ne, ne_eq]
      rintro rfl
      exact hp hx
    have hpos : 0 < path.length := List.length_pos.mpr h
    have h1 : strlen path + 1 > 1 := by omega
    simp only [h1, if_true, if_neg h]
    have hf := argz_fill_encode path hp [] [] (by simp)
    simp only [argz_encode, List.nil_append] at hf
    rw [join_tokens_nil _ (sep_tokens_ne_nil _ _)] at hf
    rw [hf, argz_entries_encode]
    intro e he hn
    unfold kept_tokens at he
    rcases List.mem_append.mp he with he | he
    · exact hp (mem_sep_tokens '&' path e (List.mem_filter.mp he).1 NUL hn)
    · split at he
      · simp at he
        subst he
        simp at hn
      · simp at he

/-- Whatever the tokeniser, when the entries that follow the name hold one that is not
`bind`, not `connect` and does not start with `zctx=`, `connector_init` returns `NULL`
with `errno = EINVAL`. -/
theorem connector_init_rejects_entry (env : Env) (path : CStr) (flags : Nat) (errno : Nat)
    (argz : List Char) (uuid : CStr) (items : List CStr)
    (hc : env.calloc_ok = true)
    (ha : env.argz_create_sep path '&' = Except.ok argz)
    (ht : argz_entries argz = uuid :: items)
    (hx : ∃ item ∈ items, item ≠ "bind".toList ∧ item ≠ "connect".toList ∧
      ¬ "zctx=".toList <+: item) :
    (connector_init env (some path) flags errno).handle = none ∧
    (connector_init env (some path) flags errno).errno = EINVAL := by
  have hp : parse_items env items (false, 0) = none := by
    apply parse_items_rejected
    obtain ⟨x, hx, h1, h2, h3⟩ := hx
    exact ⟨x, hx, h1, h2, fun h => absurd h h3⟩
  simp [connector_init, hc, ha, ht, hp, connector_init_error]

/-- Counterexample to C1: read literally, the `&`-separated tokens of `name&&bind` are
`name`, the empty token and `bind`, and the empty token is not `bind`, not `connect` and
does not start with `zctx=`; yet `connector_init` does not stop at it: glibc drops the
token, the options parse, `zmq_socket` is called and the error reported is its
`EFAULT`.  In the same way `name&&zctx=0x10` yields a handle.  And when `calloc` fails,
`name&frobnicate` gives `ENOMEM`, not `EINVAL`. -/
theorem connector_init_literal_tokens_counterexample :
    sep_tokens '&' "name&&bind".toList = ["name".toList, [], "bind".toList] ∧
    (([] : CStr) ≠ "bind".toList ∧ ([] : CStr) ≠ "connect".toList ∧
      ¬ "zctx=".toList <+: ([] : CStr)) ∧
    connector_init libzmq_env (some "name&&bind".toList) 0 0 =
      ⟨none, EFAULT, [Call.zmq_socket 0, Call.zmq_close 0, Call.free_argz, Call.free_ctx]⟩ ∧
    EFAULT ≠ EINVAL ∧
    sep_tokens '&' "name&&zctx=0x10".toList = ["name".toList, [], "zctx=0x10".toList] ∧
    (connector_init libzmq_env (some "name&&zctx=0x10".toList) 0 0).handle = some 1000 ∧
    connector_init { libzmq_env with calloc_ok := false } (some "name&frobnicate".toList) 0 0 =
      ⟨none, ENOMEM, []⟩ := by
  decide

/-- C1, amended. Take as the tokens of an address path its non-empty `&`-separated
tokens, followed by one empty token when the path ends with `&` (`path_tokens`; this is
how `argz_create_sep` splits, separators at the start of the path and repeated
separators giving no token).  When `calloc` and `argz_create_sep` do not fail for lack
of memory and the tokens after the first include one that is not `bind`, not `connect`
and does not start with `zctx=`, `connector_init` returns `NULL` with `errno = EINVAL`,
whatever the other tokens and the flags are. -/
theorem connector_init_unrecognised_option (env : Env) (path : CStr) (flags : Nat) (errno : Nat)
    (uuid : CStr) (items : List CStr)
    (hc : env.calloc_ok = true)
    (ha : env.argz_create_sep path '&' = argz_create_sep true path '&')
    (hn : NUL ∉ path)
    (ht : path_tokens path = uuid :: items)
    (hx : ∃ item ∈ items, item ≠ "bind".toList ∧ item ≠ "connect".toList ∧
      ¬ "zctx=".toList <+: item) :
    (connector_init env (some path) flags errno).handle = none ∧
    (connector_init env (some path) flags errno).errno = EINVAL := by
  have hg := glibc_tokens_eq path hn
  unfold glibc_tokens at hg
  cases hz : argz_create_sep true path '&' with
  | error e =>
    rw [hz] at hg
    exact absurd hg (by simp)
  | ok argz =>
    rw [hz] at hg ha
    have he : argz_entries argz = uuid :: items := by
      rw [← ht]
      simpa using hg
    exact connector_init_rejects_entry env path flags errno argz uuid items hc ha he hx

/-- Witness for C1, amended: the paths `name&frobnicate` and `&name&&bind&` (whose last
token is empty) in the glibc/libzmq environment. -/
theorem connector_init_unrecognised_option_witness :
    ((connector_init libzmq_env (some "name&frobnicate".toList) 7 0).handle = none ∧
      (connector_init libzmq_env (some "name&frobnicate".toList) 7 0).errno = EINVAL) ∧
    ((connector_init libzmq_env (some "&name&&bind&".toList) 7 0).handle = none ∧
      (connector_init libzmq_env (some "&name&&bind&".toList) 7 0).errno = EINVAL) :=
  ⟨connector_init_unrecognised_option libzmq_env "name&frobnicate".toList 7 0
      "name".toList ["frobnicate".toList] (by decide) rfl (by decide) (by decide) (by decide),
    connector_init_unrecognised_option libzmq_env "&name&&bind&".toList 7 0
      "name".toList ["bind".toList, []] (by decide) rfl (by decide) (by decide) (by decide)⟩

/-- Once the path is tokenised and its options parsed, `connector_init` is its second
half run on the context the parse produced. -/
theorem connector_init_parsed (env : Env) (path : CStr) (flags errno : Nat)
    (argz : List Char) (uuid : CStr) (items : List CStr) (b : Bool) (zctx : Nat)
    (hc : env.calloc_ok = true)
    (ha : env.argz_create_sep path '&' = Except.ok argz)
    (ht : argz_entries argz = uuid :: items)
    (hp : parse_items env items (false, 0) = some (b, zctx)) :
    connector_init env (some path) flags errno =
      connector_init_open env { argz := argz, uuid := some uuid, zctx := zctx } uuid b flags
        ⟨errno, []⟩ := by
  simp [connector_init, hc, ha, ht, hp]

/-- When tokenising succeeds and the option loop fails, `connector_init` stops with
`EINVAL` and only the cleanup calls have been made. -/
theorem connector_init_parse_failed (env : Env) (path : CStr) (flags errno : Nat)
    (argz : List Char) (uuid : CStr) (items : List CStr)
    (hc : env.calloc_ok = true)
    (ha : env.argz_create_sep path '&' = Except.ok argz)
    (ht : argz_entries argz = uuid :: items)
    (hp : parse_items env items (false, 0) = none) :
    connector_init env (some path) flags errno =
      ⟨none, EINVAL, [Call.zmq_close 0, Call.free_argz, Call.free_ctx]⟩ := by
  simp [connector_init, hc, ha, ht, hp, connector_init_error, op_fini]

/-- The rendezvous calls of the second half of `connector_init`: none or exactly the
one of the role, and exactly that one as soon as the socket is created and configured
or a handle is returned. -/
theorem connector_init_open_rendezvous (env : Env) (ctx : shmem_ctx_t) (uuid : CStr)
    (b : Bool) (flags errno : Nat) :
    ((connector_init_open env ctx uuid b flags ⟨errno, []⟩).trace.filter Call.is_rendezvous = [] ∨
      ∃ sock, (connector_init_open env ctx uuid b flags ⟨errno, []⟩).trace.filter
        Call.is_rendezvous = [role_call b sock uuid]) ∧
    ((connector_init_open env ctx uuid b flags ⟨errno, []⟩).handle ≠ none →
      ∃ sock, (connector_init_open env ctx uuid b flags ⟨errno, []⟩).trace.filter
        Call.is_rendezvous = [role_call b sock uuid]) ∧
    (∀ sock, env.zmq_socket ctx.zctx = Except.ok sock →
      env.zsetsockopt_int sock SockOpt.ZMQ_LINGER 5 = Except.ok () →
      env.zsetsockopt_int sock SockOpt.ZMQ_SNDHWM 0 = Except.ok () →
      env.zsetsockopt_int sock SockOpt.ZMQ_RCVHWM 0 = Except.ok () →
      (connector_init_open env ctx uuid b flags ⟨errno, []⟩).trace.filter
        Call.is_rendezvous = [role_call b sock uuid]) := by
  unfold connector_init_open
  cases b <;> simp only [] <;> (repeat' split) <;>
    simp_all [connector_init_error, op_fini, Call.is_rendezvous, role_call]

theorem last_role_nil : last_role [] = none := rfl

theorem last_role_cons (item : CStr) (rest : List CStr) :
    last_role (item :: rest) =
      if is_role item then (match last_role rest with
        | some r => some r
        | none => some item)
      else last_role rest := by
  unfold last_role
  by_cases h : is_role item = true
  · rw [List.filter_cons_of_pos h, if_pos h]
    cases hr : List.filter is_role rest with
    | nil => simp
    | cons x xs =>
      rw [List.getLast?_cons_cons]
      cases hl : (x :: xs).getLast? with
      | none => simp at hl
      | some r => rfl
  · rw [List.filter_cons_of_neg h, if_neg h]

/-- The role the option loop ends with is that of the last role option, and the role
it started with when there is none. -/
theorem parse_items_role (env : Env) (items : List CStr) (b0 : Bool) (z0 : Nat)
    (b : Bool) (z : Nat) (h : parse_items env items (b0, z0) = some (b, z)) :
    b = (match last_role items with
      | some r => r == "bind".toList
      | none => b0) := by
  induction items generalizing b0 z0 with
  | nil =>
    simp [parse_items] at h
    simp [last_role_nil, h.1]
  | cons item rest ih =>
    unfold parse_items at h
    rw [last_role_cons]
    by_cases h1 : streq item "bind".toList = true
    · rw [if_pos h1] at h
      have hi : item = "bind".toList := (streq_iff _ _).mp h1
      have := ih _ _ h
      subst hi
      rw [this]
      cases last_role rest <;> simp [is_role]
    · rw [if_neg h1] at h
      by_cases h2 : streq item "connect".toList = true
      · rw [if_pos h2] at h
        have hi : item = "connect".toList := (streq_iff _ _).mp h2
        have := ih _ _ h
        subst hi
        rw [this]
        cases last_role rest <;> simp [is_role]
      · rw [if_neg h2] at h
        have hr : is_role item = false := by
          simp only [streq] at h1 h2
          simp only [is_role, Bool.or_eq_false_iff]
          exact ⟨by simpa using h1, by simpa using h2⟩
        by_cases h3 : strstarts item "zctx=".toList = true
        · rw [if_pos h3] at h
          cases hp : env.sscanf_p (item.drop 5) with
          | none => simp [hp] at h
          | some p =>
            simp only [hp] at h
            have := ih _ _ h
            simp [hr, this]
        · rw [if_neg h3] at h
          exact absurd h (by simp)

/-- The endpoint is `inproc://` followed by the first 118 bytes of the name. -/
theorem mk_endpoint_eq (uuid : CStr) :
    mk_endpoint uuid = "inproc://".toList ++ uuid.take 118 := by
  simp [mk_endpoint, snprintf, List.take_append_eq_append_take]

/-- C2. For a path that tokenises and whose options parse, `connector_init` takes the
role of the last role option: `bind_socket` is set if and only if the last `bind` or
`connect` among the options is `bind` (so no role option means connect); the trace
holds at most one `zmq_bind` or `zmq_connect`, never that of the other role, and
exactly the one of the role as soon as the socket is created and configured or a handle
is returned. -/
theorem connector_init_role (env : Env) (path : CStr) (flags errno : Nat)
    (argz : List Char) (uuid : CStr) (items : List CStr) (b : Bool) (zctx : Nat)
    (hc : env.calloc_ok = true)
    (ha : env.argz_create_sep path '&' = Except.ok argz)
    (ht : argz_entries argz = uuid :: items)
    (hp : parse_items env items (false, 0) = some (b, zctx)) :
    (b = true ↔ last_role items = some "bind".toList) ∧
    (last_role items = none → b = false) ∧
    ((connector_init env (some path) flags errno).trace.filter Call.is_rendezvous = [] ∨
      ∃ sock, (connector_init env (some path) flags errno).trace.filter Call.is_rendezvous
        = [role_call b sock uuid]) ∧
    ((connector_init env (some path) flags errno).handle ≠ none →
      ∃ sock, (connector_init env (some path) flags errno).trace.filter Call.is_rendezvous
        = [role_call b sock uuid]) ∧
    (∀ sock, env.zmq_socket zctx = Except.ok sock →
      env.zsetsockopt_int sock SockOpt.ZMQ_LINGER 5 = Except.ok () →
      env.zsetsockopt_int sock SockOpt.ZMQ_SNDHWM 0 = Except.ok () →
      env.zsetsockopt_int sock SockOpt.ZMQ_RCVHWM 0 = Except.ok () →
      (connector_init env (some path) flags errno).trace.filter Call.is_rendezvous
        = [role_call b sock uuid]) := by
  have hb := parse_items_role env items false 0 b zctx hp
  rw [connector_init_parsed env path flags errno argz uuid items b zctx hc ha ht hp]
  refine ⟨?_, ?_, connector_init_open_rendezvous env _ uuid b flags errno⟩
  · rw [hb]
    cases last_role items <;> simp
  · intro hn
    rw [hb, hn]

/-- Witness for C2: `n&bind&zctx=0x10&connect&bind` binds, in the glibc/libzmq
environment. -/
theorem connector_init_role_witness :
    (connector_init libzmq_env (some "n&bind&zctx=0x10&connect&bind".toList) 0 0).trace.filter
      Call.is_rendezvous = [role_call true 17 "n".toList] :=
  (connector_init_role libzmq_env "n&bind&zctx=0x10&connect&bind".toList 0 0
    (argz_fill '&' "n&bind&zctx=0x10&connect&bind".toList []) "n".toList
    ["bind".toList, "zctx=0x10".toList, "connect".toList, "bind".toList] true 16
    (by decide) (by decide) (by decide) (by decide)).2.2.2.2 17 (by decide) (by decide)
    (by decide) (by decide)

/-- Once the socket is created and configured, what `connector_init` returns is decided
by the rendezvous call on the endpoint built from the name: its error when it fails,
the outcome of `flux_handle_create` when it succeeds. -/
theorem connector_init_open_endpoint (env : Env) (ctx : shmem_ctx_t) (uuid : CStr)
    (b : Bool) (flags errno sock : Nat)
    (h1 : env.zmq_socket ctx.zctx = Except.ok sock)
    (h2 : env.zsetsockopt_int sock SockOpt.ZMQ_LINGER 5 = Except.ok ())
    (h3 : env.zsetsockopt_int sock SockOpt.ZMQ_SNDHWM 0 = Except.ok ())
    (h4 : env.zsetsockopt_int sock SockOpt.ZMQ_RCVHWM 0 = Except.ok ()) :
    (∀ e, (if b then env.zmq_bind sock (mk_endpoint uuid)
        else env.zmq_connect sock (mk_endpoint uuid)) = Except.error e →
      (connector_init_open env ctx uuid b flags ⟨errno, []⟩).handle = none ∧
      (connector_init_open env ctx uuid b flags ⟨errno, []⟩).errno = e) ∧
    (∀ h, (if b then env.zmq_bind sock (mk_endpoint uuid)
        else env.zmq_connect sock (mk_endpoint uuid)) = Except.ok () →
      env.flux_handle_create flags = Except.ok h →
      (connector_init_open env ctx uuid b flags ⟨errno, []⟩).handle = some h) := by
  constructor
  · intro e he
    simp only [connector_init_open, h1, h2, h3, h4, he]
    simp [connector_init_error]
  · intro h hb hh
    simp only [connector_init_open, h1, h2, h3, h4, hb, hh]

/-- C10. Once the options are parsed and the socket is created and configured,
`connector_init` makes exactly one rendezvous call, `zmq_bind` or `zmq_connect`
according to the role, on the first 127 bytes of `inproc://` followed by the name: that
call is the only one of its kind in the trace, its failure is the error reported, and
its success leads to the handle.  No `zmq_bind` or `zmq_connect` is ever made on another
endpoint, and one is made whenever a handle is returned.  The endpoint is `inproc://`
followed by the name itself when the name has at most 118 bytes, so distinct names of
at most 118 bytes give distinct endpoints; a longer name is cut to its first 118
bytes, and names that share their first 118 bytes give the same endpoint. -/
theorem connector_init_endpoint (env : Env) (path : CStr) (flags errno : Nat)
    (argz : List Char) (uuid : CStr) (items : List CStr)
    (hc : env.calloc_ok = true)
    (ha : env.argz_create_sep path '&' = Except.ok argz)
    (ht : argz_entries argz = uuid :: items) :
    (∀ (b : Bool) (zctx sock : Nat), parse_items env items (false, 0) = some (b, zctx) →
      env.zmq_socket zctx = Except.ok sock →
      env.zsetsockopt_int sock SockOpt.ZMQ_LINGER 5 = Except.ok () →
      env.zsetsockopt_int sock SockOpt.ZMQ_SNDHWM 0 = Except.ok () →
      env.zsetsockopt_int sock SockOpt.ZMQ_RCVHWM 0 = Except.ok () →
      (connector_init env (some path) flags errno).trace.filter Call.is_rendezvous =
        [if b then Call.zmq_bind sock (("inproc://".toList ++ uuid).take 127)
         else Call.zmq_connect sock (("inproc://".toList ++ uuid).take 127)] ∧
      (∀ e, (if b then env.zmq_bind sock (("inproc://".toList ++ uuid).take 127)
          else env.zmq_connect sock (("inproc://".toList ++ uuid).take 127)) = Except.error e →
        (connector_init env (some path) flags errno).handle = none ∧
        (connector_init env (some path) flags errno).errno = e) ∧
      (∀ h, (if b then env.zmq_bind sock (("inproc://".toList ++ uuid).take 127)
          else env.zmq_connect sock (("inproc://".toList ++ uuid).take 127)) = Except.ok () →
        env.flux_handle_create flags = Except.ok h →
        (connector_init env (some path) flags errno).handle = some h)) ∧
    (∀ c ∈ (connector_init env (some path) flags errno).trace, c.is_rendezvous = true →
      ∃ sock, c = Call.zmq_bind sock (("inproc://".toList ++ uuid).take 127) ∨
        c = Call.zmq_connect sock (("inproc://".toList ++ uuid).take 127)) ∧
    ((connector_init env (some path) flags errno).handle ≠ none →
      ∃ c ∈ (connector_init env (some path) flags errno).trace, c.is_rendezvous = true) ∧
    (uuid.length ≤ 118 → mk_endpoint uuid = "inproc://".toList ++ uuid) ∧
    (118 < uuid.length → mk_endpoint uuid = "inproc://".toList ++ uuid.take 118 ∧
      mk_endpoint uuid ≠ "inproc://".toList ++ uuid) ∧
    (∀ u v : CStr, u.length ≤ 118 → v.length ≤ 118 → u ≠ v → mk_endpoint u ≠ mk_endpoint v) ∧
    (∀ u v : CStr, u.take 118 = v.take 118 → mk_endpoint u = mk_endpoint v) := by
  have hm : mk_endpoint uuid = ("inproc://".toList ++ uuid).take 127 := by
    simp [mk_endpoint, snprintf]
  refine ⟨?_, ?_, ?_, ?_, ?_, ?_, ?_⟩
  · intro b zctx sock hp h1 h2 h3 h4
    rw [connector_init_parsed env path flags errno argz uuid items b zctx hc ha ht hp, ← hm]
    have hr := (connector_init_open_rendezvous env
      { argz := argz, uuid := some uuid, zctx := zctx } uuid b flags errno).2.2 sock h1 h2 h3 h4
    have he := connector_init_open_endpoint env
      { argz := argz, uuid := some uuid, zctx := zctx } uuid b flags errno sock h1 h2 h3 h4
    refine ⟨?_, he.1, he.2⟩
    rw [hr]
    cases b <;> simp [role_call]
  · intro c hcm hr
    cases hp : parse_items env items (false, 0) with
    | none =>
      rw [connector_init_parse_failed env path flags errno argz uuid items hc ha ht hp] at hcm
      simp at hcm
      rcases hcm with rfl | rfl | rfl <;> simp [Call.is_rendezvous] at hr
    | some bz =>
      obtain ⟨b, z⟩ := bz
      rw [connector_init_parsed env path flags errno argz uuid items b z hc ha ht hp] at hcm
      have hf := (connector_init_open_rendezvous env
        { argz := argz, uuid := some uuid, zctx := z } uuid b flags errno).1
      have hmem : c ∈ (connector_init_open env { argz := argz, uuid := some uuid, zctx := z }
          uuid b flags ⟨errno, []⟩).trace.filter Call.is_rendezvous :=
        List.mem_filter.mpr ⟨hcm, hr⟩
      rcases hf with hf | ⟨sock, hf⟩
      · rw [hf] at hmem
        simp at hmem
      · rw [hf] at hmem
        rw [List.mem_singleton] at hmem
        refine ⟨sock, ?_⟩
        rw [← hm, hmem]
        cases b <;> simp [role_call]
  · intro hh
    cases hp : parse_items env items (false, 0) with
    | none =>
      rw [connector_init_parse_failed env path flags errno argz uuid items hc ha ht hp] at hh
      simp at hh
    | some bz =>
      obtain ⟨b, z⟩ := bz
      rw [connector_init_parsed env path flags errno argz uuid items b z hc ha ht hp] at hh ⊢
      obtain ⟨sock, hf⟩ := (connector_init_open_rendezvous env
        { argz := argz, uuid := some uuid, zctx := z } uuid b flags errno).2.1 hh
      have hmem : role_call b sock uuid ∈ (connector_init_open env
          { argz := argz, uuid := some uuid, zctx := z } uuid b flags
          ⟨errno, []⟩).trace.filter Call.is_rendezvous := by
        rw [hf]
        exact List.mem_singleton.mpr rfl
      exact ⟨_, (List.mem_filter.mp hmem).1, (List.mem_filter.mp hmem).2⟩
  · intro hl
    rw [mk_endpoint_eq, List.take_of_length_le hl]
  · intro hl
    refine ⟨mk_endpoint_eq uuid, ?_⟩
    rw [mk_endpoint_eq]
    intro h
    have h2 := congrArg List.length (List.append_cancel_left h)
    rw [List.length_take] at h2
    omega
  · intro u v hu hv hne h
    rw [mk_endpoint_eq, mk_endpoint_eq, List.take_of_length_le hu, List.take_of_length_le hv] at h
    exact hne (List.append_cancel_left h)
  · intro u v h
    rw [mk_endpoint_eq, mk_endpoint_eq, h]

set_option maxRecDepth 100000

/-- Witness for C10, in the glibc/libzmq environment: the path `n&bind&zctx=0x10` binds
`inproc://n`, and a path whose name is 120 times `a`, followed by `&zctx=0x10`, connects
to `inproc://` followed by 118 times `a`. -/
theorem connector_init_endpoint_witness :
    (connector_init libzmq_env (some "n&bind&zctx=0x10".toList) 0 0).trace.filter
        Call.is_rendezvous = [Call.zmq_bind 17 "inproc://n".toList] ∧
    (connector_init libzmq_env (some (List.replicate 120 'a' ++ "&zctx=0x10".toList)) 0
        0).trace.filter Call.is_rendezvous =
      [Call.zmq_connect 17 ("inproc://".toList ++ List.replicate 118 'a')] :=
  ⟨((connector_init_endpoint libzmq_env "n&bind&zctx=0x10".toList 0 0
      (argz_fill '&' "n&bind&zctx=0x10".toList []) "n".toList
      ["bind".toList, "zctx=0x10".toList] (by decide) (by decide) (by decide)).1 true 16 17
      (by decide) (by decide) (by decide) (by decide) (by decide)).1,
    ((connector_init_endpoint libzmq_env (List.replicate 120 'a' ++ "&zctx=0x10".toList) 0 0
      (argz_fill '&' (List.replicate 120 'a' ++ "&zctx=0x10".toList) [])
      (List.replicate 120 'a') ["zctx=0x10".toList] (by decide) (by decide) (by decide)).1
      false 16 17 (by decide) (by decide) (by decide) (by decide) (by decide)).1⟩

/-- The copy loop of glibc always ends by writing the terminating NUL. -/
theorem argz_fill_ends (s : CStr) (buf : List Char) :
    ∃ pre, argz_fill '&' s buf = pre ++ [NUL] := by
  have hput : ∀ b : List Char, argz_put '&' NUL b = b ++ [NUL] := by
    intro b
    have hne : ¬ (NUL = '&') := by decide
    simp [argz_put, hne]
  induction s generalizing buf with
  | nil => exact ⟨buf, hput buf⟩
  | cons c cs ih =>
    unfold argz_fill
    by_cases hc : c = NUL
    · rw [if_pos hc]
      exact ⟨buf, hput buf⟩
    · rw [if_neg hc]
      exact ih _

/-- A buffer that ends with a NUL holds at least one entry. -/
theorem argz_entries_aux_ne_nil (pre cur : List Char) :
    argz_entries_aux (pre ++ [NUL]) cur ≠ [] := by
  induction pre generalizing cur with
  | nil => simp [argz_entries_aux]
  | cons c cs ih =>
    rw [List.cons_append]
    unfold argz_entries_aux
    by_cases hc : c = NUL
    · rw [if_pos hc]
      simp
    · rw [if_neg hc]
      exact ih _

/-- With glibc, the tokenised path has no entry at all exactly for the empty path. -/
theorem glibc_tokens_nil_iff (path : CStr) :
    glibc_tokens true path '&' = Except.ok [] ↔ strlen path = 0 := by
  unfold glibc_tokens argz_create_sep
  by_cases h : strlen path = 0
  · simp [h, argz_entries, argz_entries_aux]
  · have h1 : strlen path + 1 > 1 := by omega
    simp only [h1, if_true, h, iff_false]
    obtain ⟨pre, hp⟩ := argz_fill_ends path []
    intro hx
    have hx1 : argz_entries (argz_fill '&' path []) = [] := by
      simpa using hx
    rw [hp] at hx1
    exact argz_entries_aux_ne_nil pre [] hx1

/-- Counterexample to C3: the path `&` has the empty name as its only token, yet
`connector_init` goes on to `zmq_socket` and reports the `EFAULT` of libzmq, not
`EINVAL`; the path `&n&zctx=0x10` starts with the separator and yields a handle. -/
theorem connector_init_empty_name_counterexample :
    glibc_tokens true "&".toList '&' = Except.ok [[]] ∧
    connector_init libzmq_env (some "&".toList) 0 0 =
      ⟨none, EFAULT, [Call.zmq_socket 0, Call.zmq_close 0, Call.free_argz, Call.free_ctx]⟩ ∧
    EFAULT ≠ EINVAL ∧
    (connector_init libzmq_env (some "&n&zctx=0x10".toList) 0 0).handle = some 1000 := by
  decide

/-- C3, amended. When the tokenised path has no entry at all, so that the name is
missing, `connector_init` returns `NULL` with `errno = EINVAL` and has called none of
`zmq_socket`, `zmq_bind`, `zmq_connect`. -/
theorem connector_init_missing_name (env : Env) (path : CStr) (flags errno : Nat)
    (argz : List Char)
    (hc : env.calloc_ok = true)
    (ha : env.argz_create_sep path '&' = Except.ok argz)
    (ht : argz_entries argz = []) :
    (connector_init env (some path) flags errno).handle = none ∧
    (connector_init env (some path) flags errno).errno = EINVAL ∧
    ∀ c ∈ (connector_init env (some path) flags errno).trace, c.opens_endpoint = false := by
  simp [connector_init, hc, ha, ht, connector_init_error, op_fini, Call.opens_endpoint]

/-- Witness for C3, amended: the empty path in the glibc/libzmq environment. -/
theorem connector_init_missing_name_witness :
    (connector_init libzmq_env (some []) 0 0).handle = none ∧
    (connector_init libzmq_env (some []) 0 0).errno = EINVAL ∧
    ∀ c ∈ (connector_init libzmq_env (some []) 0 0).trace, c.opens_endpoint = false :=
  connector_init_missing_name libzmq_env [] 0 0 [] (by decide) (by decide) (by decide)

/-- Counterexample to C4: the path `name&bind` has a name, only recognised options
and no context option; `connector_init` reports `EFAULT`, the error `zmq_socket` sets
for a `NULL` context, not `EINVAL`. -/
theorem connector_init_no_zctx_counterexample :
    connector_init libzmq_env (some "name&bind".toList) 0 0 =
      ⟨none, EFAULT, [Call.zmq_socket 0, Call.zmq_close 0, Call.free_argz, Call.free_ctx]⟩ ∧
    EFAULT ≠ EINVAL := by
  decide

/-- C4, amended. With a name present: if some option starts with `zctx=` and its value
cannot be read as a pointer, `connector_init` returns `NULL` with `errno = EINVAL` and
has called none of `zmq_socket`, `zmq_bind`, `zmq_connect`; if every option is `bind`
or `connect`, so that there is no context option, `connector_init` makes no check of
its own: its first call is `zmq_socket` on a `NULL` context, and when that call fails
the error reported is the one `zmq_socket` set. -/
theorem connector_init_zctx (env : Env) (path : CStr) (flags errno : Nat)
    (argz : List Char) (uuid : CStr) (items : List CStr)
    (hc : env.calloc_ok = true)
    (ha : env.argz_create_sep path '&' = Except.ok argz)
    (ht : argz_entries argz = uuid :: items) :
    ((∃ item ∈ items, "zctx=".toList <+: item ∧ env.sscanf_p (item.drop 5) = none) →
      (connector_init env (some path) flags errno).handle = none ∧
      (connector_init env (some path) flags errno).errno = EINVAL ∧
      ∀ c ∈ (connector_init env (some path) flags errno).trace, c.opens_endpoint = false) ∧
    ((∀ item ∈ items, item = "bind".toList ∨ item = "connect".toList) →
      (connector_init env (some path) flags errno).trace.head? = some (Call.zmq_socket 0) ∧
      ∀ e, env.zmq_socket 0 = Except.error e →
        (connector_init env (some path) flags errno).handle = none ∧
        (connector_init env (some path) flags errno).errno = e) := by
  constructor
  · rintro ⟨x, hx, hpre, hs⟩
    have hp : parse_items env items (false, 0) = none := by
      apply parse_items_rejected
      refine ⟨x, hx, ?_, ?_, fun _ => hs⟩
      · rintro rfl
        exact absurd hpre (by decide)
      · rintro rfl
        exact absurd hpre (by decide)
    rw [connector_init_parse_failed env path flags errno argz uuid items hc ha ht hp]
    simp [Call.opens_endpoint]
  · intro hr
    obtain ⟨b, hp⟩ := parse_items_roles env items false 0 hr
    rw [connector_init_parsed env path flags errno argz uuid items b 0 hc ha ht hp]
    unfold connector_init_open
    constructor
    · simp only []
      (repeat' split) <;> simp [connector_init_error, op_fini]
    · intro e he
      simp [he, connector_init_error]

/-- Witness for C4, amended: `name&zctx=zz` carries an unreadable reference and
`name&connect` carries none, in the glibc/libzmq environment. -/
theorem connector_init_zctx_witness :
    ((connector_init libzmq_env (some "name&zctx=zz".toList) 0 0).handle = none ∧
      (connector_init libzmq_env (some "name&zctx=zz".toList) 0 0).errno = EINVAL ∧
      ∀ c ∈ (connector_init libzmq_env (some "name&zctx=zz".toList) 0 0).trace,
        c.opens_endpoint = false) ∧
    ((connector_init libzmq_env (some "name&connect".toList) 0 0).handle = none ∧
      (connector_init libzmq_env (some "name&connect".toList) 0 0).errno = EFAULT) :=
  ⟨(connector_init_zctx libzmq_env "name&zctx=zz".toList 0 0
      (argz_fill '&' "name&zctx=zz".toList []) "name".toList ["zctx=zz".toList]
      (by decide) (by decide) (by decide)).1 ⟨"zctx=zz".toList, by decide, by decide, by decide⟩,
    ((connector_init_zctx libzmq_env "name&connect".toList 0 0
      (argz_fill '&' "name&connect".toList []) "name".toList ["connect".toList]
      (by decide) (by decide) (by decide)).2 (by decide)).2 EFAULT (by decide)⟩

/-- The option loop reads its environment through `sscanf` only. -/
theorem parse_items_congr (env env1 : Env) (hs : env1.sscanf_p = env.sscanf_p)
    (items : List CStr) (acc : Bool × Nat) :
    parse_items env1 items acc = parse_items env items acc := by
  induction items generalizing acc with
  | nil => rfl
  | cons item rest ih =>
    obtain ⟨b, z⟩ := acc
    unfold parse_items
    simp only [ih, hs]

/-- The steps do not involve the cleanup functions. -/
theorem connector_init_steps_cleanup (env : Env) (close : Nat → Option Nat)
    (free : Option Nat) (path : Option CStr) (flags : Nat) :
    connector_init_steps { env with zmq_close := close, free := free } path flags =
      connector_init_steps env path flags := by
  unfold connector_init_steps
  simp only [parse_items_congr env { env with zmq_close := close, free := free } rfl]

/-- The caller sees the outcome of the steps: `NULL` and the error of the step that
failed, or the handle and the `errno` it had at entry. -/
theorem connector_init_outcome (env : Env) (path : Option CStr) (flags errno : Nat) :
    ((connector_init env path flags errno).handle, (connector_init env path flags errno).errno) =
      (match connector_init_steps env path flags with
        | Except.error e => (none, e)
        | Except.ok h => (some h, errno)) := by
  unfold connector_init connector_init_steps connector_init_open
  simp only []
  (repeat' split) <;> simp_all [connector_init_error]

/-- C7. Whenever a step of `connector_init` fails (null path, allocation, tokenising,
parsing, socket creation or option setting, bind or connect, handle creation) the result
is `NULL` and `errno` is the error code of that step; a handle is returned only when
every step succeeds; and neither depends on what `zmq_close` and `free` write to
`errno` during the cleanup made by `op_fini`. -/
theorem connector_init_errno (env : Env) (path : Option CStr) (flags errno : Nat) :
    (∀ e, connector_init_steps env path flags = Except.error e →
      (connector_init env path flags errno).handle = none ∧
      (connector_init env path flags errno).errno = e) ∧
    (∀ h, connector_init_steps env path flags = Except.ok h →
      (connector_init env path flags errno).handle = some h) ∧
    ((connector_init env path flags errno).handle = none →
      ∃ e, connector_init_steps env path flags = Except.error e) ∧
    (∀ (close : Nat → Option Nat) (free : Option Nat),
      (connector_init { env with zmq_close := close, free := free } path flags errno).handle =
        (connector_init env path flags errno).handle ∧
      (connector_init { env with zmq_close := close, free := free } path flags errno).errno =
        (connector_init env path flags errno).errno) := by
  have h0 := connector_init_outcome env path flags errno
  refine ⟨?_, ?_, ?_, ?_⟩
  · intro e he
    rw [he] at h0
    exact ⟨(Prod.mk.inj h0).1, (Prod.mk.inj h0).2⟩
  · intro h hh
    rw [hh] at h0
    exact (Prod.mk.inj h0).1
  · intro hn
    cases hs : connector_init_steps env path flags with
    | error e => exact ⟨e, rfl⟩
    | ok h =>
      rw [hs] at h0
      rw [(Prod.mk.inj h0).1] at hn
      exact absurd hn (by simp)
  · intro close free
    have h1 := connector_init_outcome { env with zmq_close := close, free := free } path flags errno
    rw [connector_init_steps_cleanup, ← h0] at h1
    exact ⟨(Prod.mk.inj h1).1, (Prod.mk.inj h1).2⟩

/-- Witness for C7: `name&frobnicate` fails at parsing with `EINVAL`; the cleanup then
calls `zmq_close (NULL)`, which sets `ENOTSOCK`, and the caller still sees `EINVAL`. -/
theorem connector_init_errno_witness :
    libzmq_env.zmq_close 0 = some ENOTSOCK ∧
    (connector_init libzmq_env (some "name&frobnicate".toList) 0 0).handle = none ∧
    (connector_init libzmq_env (some "name&frobnicate".toList) 0 0).errno = EINVAL :=
  ⟨by decide, (connector_init_errno libzmq_env (some "name&frobnicate".toList) 0 0).1 EINVAL
    (by decide)⟩

/-- C5. With the nonblocking flag set and a zero-timeout poll that reports no ready
item, `op_recv` returns `NULL` with `errno = EWOULDBLOCK` after the poll alone, the
blocking receive not being invoked; without the flag it does not poll: its only call is
the blocking receive, whose outcome it returns. -/
theorem op_recv_nonblock (env : RecvEnv) (FLUX_O_NONBLOCK : Nat) (ctx : shmem_ctx_t)
    (flags errno : Nat) :
    (flags &&& FLUX_O_NONBLOCK ≠ 0 → env.zmq_poll.1 = 0 →
      op_recv env FLUX_O_NONBLOCK ctx flags errno = ⟨none, EWOULDBLOCK, [Call.zmq_poll]⟩ ∧
      Call.zmqutil_msg_recv ctx.sock ∉ (op_recv env FLUX_O_NONBLOCK ctx flags errno).trace) ∧
    (flags &&& FLUX_O_NONBLOCK = 0 →
      (op_recv env FLUX_O_NONBLOCK ctx flags errno).trace = [Call.zmqutil_msg_recv ctx.sock] ∧
      (op_recv env FLUX_O_NONBLOCK ctx flags errno).msg =
        (match env.zmqutil_msg_recv ctx.sock with
          | Except.ok msg => some msg
          | Except.error _ => none)) := by
  constructor
  · intro hf hn
    simp [op_recv, hf, hn]
  · intro hf
    simp only [op_recv, hf]
    cases env.zmqutil_msg_recv ctx.sock <;> simp

/-- Witness for C5: flags 4 and 0 with the flag bit 4, nothing pending. -/
theorem op_recv_nonblock_witness :
    op_recv idle_recv_env 4 {} 4 0 = ⟨none, EWOULDBLOCK, [Call.zmq_poll]⟩ ∧
    (op_recv idle_recv_env 4 {} 0 0).trace = [Call.zmqutil_msg_recv 0] :=
  ⟨((op_recv_nonblock idle_recv_env 4 {} 4 0).1 (by decide) (by decide)).1,
    ((op_recv_nonblock idle_recv_env 4 {} 0 0).2 (by decide)).1⟩

/-- Bitwise and distributes over bitwise or, on the right. -/
theorem lor_land_right (x y z : Nat) : (x ||| y) &&& z = (x &&& z) ||| (y &&& z) := by
  rw [Nat.and_comm, Nat.and_or_distrib_left, Nat.and_comm z x, Nat.and_comm z y]

/-- C6. When the query of the native events succeeds with value `e`, `op_pollevents`
returns a value determined by `e` alone: it contains `FLUX_POLLIN` exactly when `e` has
`ZMQ_POLLIN`, `FLUX_POLLOUT` exactly when `e` has `ZMQ_POLLOUT`, `FLUX_POLLERR` exactly
when `e` has `ZMQ_POLLERR`, contains no other bit, and is not negative.  The three flux
bits are assumed nonzero, pairwise disjoint and below the sign bit of an `int`. -/
theorem op_pollevents_translate (k : PollBits) (getopt : Nat → SockOpt → Except Nat Nat)
    (ctx : shmem_ctx_t) (e : Nat)
    (hin : k.FLUX_POLLIN ≠ 0) (hout : k.FLUX_POLLOUT ≠ 0) (herr : k.FLUX_POLLERR ≠ 0)
    (d1 : k.FLUX_POLLIN &&& k.FLUX_POLLOUT = 0)
    (d2 : k.FLUX_POLLIN &&& k.FLUX_POLLERR = 0)
    (d3 : k.FLUX_POLLOUT &&& k.FLUX_POLLERR = 0)
    (b1 : k.FLUX_POLLIN < 2 ^ 31) (b2 : k.FLUX_POLLOUT < 2 ^ 31) (b3 : k.FLUX_POLLERR < 2 ^ 31)
    (he : getopt ctx.sock SockOpt.ZMQ_EVENTS = Except.ok e) :
    ∃ r : Nat, op_pollevents k getopt ctx = (r : Int) ∧
      (r &&& k.FLUX_POLLIN = k.FLUX_POLLIN ↔ e &&& k.ZMQ_POLLIN ≠ 0) ∧
      (r &&& k.FLUX_POLLOUT = k.FLUX_POLLOUT ↔ e &&& k.ZMQ_POLLOUT ≠ 0) ∧
      (r &&& k.FLUX_POLLERR = k.FLUX_POLLERR ↔ e &&& k.ZMQ_POLLERR ≠ 0) ∧
      r &&& (k.FLUX_POLLIN ||| k.FLUX_POLLOUT ||| k.FLUX_POLLERR) = r ∧
      0 ≤ op_pollevents k getopt ctx ∧
      ∀ (getopt1 : Nat → SockOpt → Except Nat Nat) (ctx1 : shmem_ctx_t),
        getopt1 ctx1.sock SockOpt.ZMQ_EVENTS = Except.ok e →
        op_pollevents k getopt1 ctx1 = op_pollevents k getopt ctx := by
  have d1s : k.FLUX_POLLOUT &&& k.FLUX_POLLIN = 0 := by rw [Nat.and_comm]; exact d1
  have d2s : k.FLUX_POLLERR &&& k.FLUX_POLLIN = 0 := by rw [Nat.and_comm]; exact d2
  have d3s : k.FLUX_POLLERR &&& k.FLUX_POLLOUT = 0 := by rw [Nat.and_comm]; exact d3
  have hlt : ∀ x y z : Nat, x < 2 ^ 31 → y < 2 ^ 31 → z < 2 ^ 31 →
      int_of_bits (x ||| y ||| z) = ((x ||| y ||| z : Nat) : Int) := by
    intro x y z hx hy hz
    have h := Nat.or_lt_two_pow (Nat.or_lt_two_pow hx hy) hz
    have h32 : x ||| y ||| z < 2 ^ 32 := by omega
    unfold int_of_bits
    rw [Nat.mod_eq_of_lt h32, if_pos h]
  have h0 : (0 : Nat) < 2 ^ 31 := by norm_num
  have hval : op_pollevents k getopt ctx =
      (((if e &&& k.ZMQ_POLLIN ≠ 0 then k.FLUX_POLLIN else 0) |||
        (if e &&& k.ZMQ_POLLOUT ≠ 0 then k.FLUX_POLLOUT else 0) |||
        (if e &&& k.ZMQ_POLLERR ≠ 0 then k.FLUX_POLLERR else 0) : Nat) : Int) := by
    simp only [op_pollevents, he]
    rw [← hlt]
    · by_cases c1 : e &&& k.ZMQ_POLLIN ≠ 0 <;> by_cases c2 : e &&& k.ZMQ_POLLOUT ≠ 0 <;>
        by_cases c3 : e &&& k.ZMQ_POLLERR ≠ 0 <;> simp [c1, c2, c3]
    · split <;> assumption
    · split <;> assumption
    · split <;> assumption
  refine ⟨_, hval, ?_, ?_, ?_, ?_, ?_, ?_⟩
  · by_cases c1 : e &&& k.ZMQ_POLLIN ≠ 0 <;> by_cases c2 : e &&& k.ZMQ_POLLOUT ≠ 0 <;>
      by_cases c3 : e &&& k.ZMQ_POLLERR ≠ 0 <;>
      simp [c1, c2, c3, lor_land_right, d1s, d2s, hin, Ne.symm hin]
  · by_cases c1 : e &&& k.ZMQ_POLLIN ≠ 0 <;> by_cases c2 : e &&& k.ZMQ_POLLOUT ≠ 0 <;>
      by_cases c3 : e &&& k.ZMQ_POLLERR ≠ 0 <;>
      simp [c1, c2, c3, lor_land_right, d1, d3s, hout, Ne.symm hout]
  · by_cases c1 : e &&& k.ZMQ_POLLIN ≠ 0 <;> by_cases c2 : e &&& k.ZMQ_POLLOUT ≠ 0 <;>
      by_cases c3 : e &&& k.ZMQ_POLLERR ≠ 0 <;>
      simp [c1, c2, c3, lor_land_right, d2, d3, herr, Ne.symm herr]
  · by_cases c1 : e &&& k.ZMQ_POLLIN ≠ 0 <;> by_cases c2 : e &&& k.ZMQ_POLLOUT ≠ 0 <;>
      by_cases c3 : e &&& k.ZMQ_POLLERR ≠ 0 <;>
      simp [c1, c2, c3, lor_land_right, Nat.and_or_distrib_left, d1, d2, d3,
        d1s, d2s, d3s]
  · rw [hval]
    exact Int.ofNat_nonneg _
  · intro getopt1 ctx1 he1
    simp only [op_pollevents, he, he1]

/-- Witness for C6: the bits of `zmq.h` and `flux/core.h` (1, 2 and 4 on both sides)
and the native events `ZMQ_POLLIN | ZMQ_POLLERR`. -/
theorem op_pollevents_translate_witness :
    ∃ r : Nat, op_pollevents poll_bits (fun _ _ => Except.ok 5) {} = (r : Int) ∧
      (r &&& 1 = 1 ↔ 5 &&& 1 ≠ 0) ∧ (r &&& 2 = 2 ↔ 5 &&& 2 ≠ 0) ∧
      (r &&& 4 = 4 ↔ 5 &&& 4 ≠ 0) ∧ r &&& (1 ||| 2 ||| 4) = r ∧
      0 ≤ op_pollevents poll_bits (fun _ _ => Except.ok 5) {} ∧
      ∀ (getopt1 : Nat → SockOpt → Except Nat Nat) (ctx1 : shmem_ctx_t),
        getopt1 ctx1.sock SockOpt.ZMQ_EVENTS = Except.ok 5 →
        op_pollevents poll_bits getopt1 ctx1 =
          op_pollevents poll_bits (fun _ _ => Except.ok 5) {} :=
  op_pollevents_translate poll_bits (fun _ _ => Except.ok 5) {} 5
    (by decide) (by decide) (by decide) (by decide) (by decide) (by decide)
    (by decide) (by decide) (by decide) rfl

/-- Counterexample to C8: a version 1 response without timestamp decodes, and the
function returns 0 with the date of the epoch in the buffer, not `N/A`. -/
theorem formatted_timestamp_counterexample :
    kvs_checkpoint_lookup_get_formatted_timestamp utc_env
      (some (Except.ok ⟨1, none⟩)) (some []) 64 0 =
      ⟨0, 0, some "1970-01-01T00:00:00".toList⟩ ∧
    "1970-01-01T00:00:00".toList ≠ "N/A".toList := by
  decide

/-- C8, amended. For a response that decodes and a buffer that is large enough, the
function goes by the version: for version 0 it returns 0 and writes `N/A`, whether or
not the response carries a timestamp; for version 1 it returns 0 and writes the
formatted date-time of the timestamp, taken as `0.` when the response carries none;
for any other version it returns -1 with `errno = EINVAL` and leaves the buffer. -/
theorem formatted_timestamp_by_version {D : Type} (env : TimeEnv D) (v : checkpoint_value D)
    (old : CStr) (len errno : Nat) :
    (v.version = 0 → 4 ≤ len →
      kvs_checkpoint_lookup_get_formatted_timestamp env (some (Except.ok v)) (some old) len errno
        = ⟨0, errno, some "N/A".toList⟩) ∧
    (v.version = 1 →
      env.strftime_FT (env.to_time_t (v.timestamp.getD env.zero)) ≠ [] →
      (env.strftime_FT (env.to_time_t (v.timestamp.getD env.zero))).length < len →
      kvs_checkpoint_lookup_get_formatted_timestamp env (some (Except.ok v)) (some old) len errno
        = ⟨0, errno, some (env.strftime_FT (env.to_time_t (v.timestamp.getD env.zero)))⟩) ∧
    (v.version ≠ 0 → v.version ≠ 1 →
      kvs_checkpoint_lookup_get_formatted_timestamp env (some (Except.ok v)) (some old) len errno
        = ⟨-1, EINVAL, some old⟩) := by
  refine ⟨?_, ?_, ?_⟩
  · intro hv hl
    have h3 : ¬ (3 ≥ len) := by omega
    have h0 : ¬ (len = 0) := by omega
    have hlen : "N/A".toList.length = 3 := rfl
    simp only [kvs_checkpoint_lookup_get_formatted_timestamp, hv, snprintf, hlen]
    simp [h3, h0]
    omega
  · intro hv hne hl
    have hpos : (env.strftime_FT (env.to_time_t (v.timestamp.getD env.zero))).length ≠ 0 := by
      intro h
      exact hne (List.length_eq_zero.mp h)
    have hfit : (env.strftime_FT (env.to_time_t (v.timestamp.getD env.zero))).length + 1 ≤ len := hl
    simp [kvs_checkpoint_lookup_get_formatted_timestamp, hv, strftime, hfit, hne]
  · intro h0 h1
    simp [kvs_checkpoint_lookup_get_formatted_timestamp, h0, h1]

/-- Witness for C8, amended: versions 0 (with a timestamp), 1 and 2 with a buffer of
64 bytes, times in UTC. -/
theorem formatted_timestamp_by_version_witness :
    kvs_checkpoint_lookup_get_formatted_timestamp utc_env
      (some (Except.ok ⟨0, some 1700000000⟩)) (some []) 64 0 = ⟨0, 0, some "N/A".toList⟩ ∧
    kvs_checkpoint_lookup_get_formatted_timestamp utc_env
      (some (Except.ok ⟨1, some 1700000000⟩)) (some []) 64 0 =
      ⟨0, 0, some "2023-11-14T22:13:20".toList⟩ ∧
    kvs_checkpoint_lookup_get_formatted_timestamp utc_env
      (some (Except.ok ⟨2, some 1700000000⟩)) (some []) 64 0 = ⟨-1, EINVAL, some []⟩ :=
  ⟨(formatted_timestamp_by_version utc_env ⟨0, some 1700000000⟩ [] 64 0).1 rfl (by decide),
    (formatted_timestamp_by_version utc_env ⟨1, some 1700000000⟩ [] 64 0).2.1 rfl
      (by decide) (by decide),
    (formatted_timestamp_by_version utc_env ⟨2, some 1700000000⟩ [] 64 0).2.2
      (by decide) (by decide)⟩

/-- Once `done` is set a callback sequence changes nothing and does nothing. -/
theorem doom_run_done (doom : shell_doom) (evs : List DoomEvent)
    (hr : doom.shell_rank = 0 ∨ ∀ ev ∈ evs, ev.is_task_exit = true)
    (hd : doom.done = true) : doom_run doom evs = some (doom, []) := by
  induction evs with
  | nil => rfl
  | cons ev rest ih =>
    have hr1 : doom.shell_rank = 0 ∨ ∀ ev ∈ rest, ev.is_task_exit = true :=
      hr.imp id (fun h x hx => h x (List.mem_cons_of_mem _ hx))
    cases ev with
    | task_exit found unpacked =>
      have hs : doom_step doom (DoomEvent.task_exit found unpacked) = some (doom, []) := by
        cases found <;> simp [doom_step, doom_task_exit, hd]
      simp [doom_run, hs, ih hr1]
    | notify unpacked =>
      have h0 : doom.shell_rank = 0 := by
        rcases hr with h | h
        · exact h
        · exact absurd (h _ (List.mem_cons_self _ _)) (by simp [DoomEvent.is_task_exit])
      have hs : doom_step doom (DoomEvent.notify unpacked) = some (doom, []) := by
        simp [doom_step, doom_notify_cb, h0, hd]
      simp [doom_run, hs, ih hr1]

/-- A callback sequence on shell 0, or a sequence of task exits on any shell, runs to
its end, takes the expected actions, and sets `done` exactly when it was set or some
invocation unpacked its task info. -/
theorem doom_run_eq (doom : shell_doom) (evs : List DoomEvent)
    (hr : doom.shell_rank = 0 ∨ ∀ ev ∈ evs, ev.is_task_exit = true) :
    doom_run doom evs =
      some ({ doom with done := doom.done || (evs.findSome? DoomEvent.unpacks).isSome },
        expected_actions doom.shell_rank doom.done evs) := by
  induction evs generalizing doom with
  | nil => simp [doom_run, expected_actions]
  | cons ev rest ih =>
    have hr1 : doom.shell_rank = 0 ∨ ∀ ev ∈ rest, ev.is_task_exit = true :=
      hr.imp id (fun h x hx => h x (List.mem_cons_of_mem _ hx))
    by_cases hd : doom.done = true
    · rw [doom_run_done doom _ hr hd]
      simp [expected_actions, hd]
      cases doom
      simp at hd
      simp [hd]
    · have hd0 : doom.done = false := by simpa using hd
      cases hu : ev.unpacks with
      | none =>
        have hs : doom_step doom ev = some (doom, []) := by
          cases ev with
          | task_exit found unpacked =>
            cases found
            · simp [doom_step, doom_task_exit]
            · simp [DoomEvent.unpacks] at hu
              simp [doom_step, doom_task_exit, hd0, hu]
          | notify unpacked =>
            have h0 : doom.shell_rank = 0 := by
              rcases hr with h | h
              · exact h
              · exact absurd (h _ (List.mem_cons_self _ _)) (by simp [DoomEvent.is_task_exit])
            simp [DoomEvent.unpacks] at hu
            simp [doom_step, doom_notify_cb, h0, hd0, hu]
        simp [doom_run, hs, ih doom hr1, expected_actions, hd0, List.findSome?_cons, hu]
      | some info =>
        have hs : doom_step doom ev = some ({ doom with done := true },
            [first_exit_action doom.shell_rank info]) := by
          cases ev with
          | task_exit found unpacked =>
            cases found
            · simp [DoomEvent.unpacks] at hu
            · simp [DoomEvent.unpacks] at hu
              by_cases h0 : doom.shell_rank = 0 <;>
                simp [doom_step, doom_task_exit, hd0, hu, h0, first_exit_action]
          | notify unpacked =>
            have h0 : doom.shell_rank = 0 := by
              rcases hr with h | h
              · exact h
              · exact absurd (h _ (List.mem_cons_self _ _)) (by simp [DoomEvent.is_task_exit])
            simp [DoomEvent.unpacks] at hu
            simp [doom_step, doom_notify_cb, h0, hd0, hu, first_exit_action]
        have hdone := doom_run_done { doom with done := true } rest hr1 rfl
        simp [doom_run, hs, hdone, expected_actions, hd0, List.findSome?_cons, hu]

/-- C9. On shell 0, every sequence of task-exit callbacks and first-task-exit
notifications applied to one `shell_doom` runs to its end and invokes `doom_post` at
most once: not at all when `done` was already set, and otherwise for the first
invocation whose task info unpacks, if there is one; when `done` is set it stays set.
On a shell of rank greater than 0, every sequence of task-exit callbacks likewise
invokes `doom_notify` at most once, under the same conditions, and never `doom_post`. -/
theorem doom_first_exit_once (doom : shell_doom) (evs : List DoomEvent) :
    (doom.shell_rank = 0 →
      ∃ doom1 acts, doom_run doom evs = some (doom1, acts) ∧
        acts.length ≤ 1 ∧
        acts = (if doom.done then []
          else match evs.findSome? DoomEvent.unpacks with
            | some task_info => [DoomAction.doom_post task_info]
            | none => []) ∧
        (doom.done = true → doom1.done = true ∧ acts = [])) ∧
    (doom.shell_rank ≠ 0 → (∀ ev ∈ evs, ev.is_task_exit = true) →
      ∃ doom1 acts, doom_run doom evs = some (doom1, acts) ∧
        acts.length ≤ 1 ∧
        acts = (if doom.done then []
          else match evs.findSome? DoomEvent.unpacks with
            | some task_info => [DoomAction.doom_notify task_info]
            | none => []) ∧
        (doom.done = true → doom1.done = true ∧ acts = [])) := by
  constructor
  · intro h0
    refine ⟨_, _, doom_run_eq doom evs (Or.inl h0), ?_, ?_, ?_⟩
    · unfold expected_actions
      split
      · simp
      · split <;> simp
    · simp [expected_actions, first_exit_action, h0]
    · intro hd
      simp [expected_actions, hd]
  · intro h0 ht
    refine ⟨_, _, doom_run_eq doom evs (Or.inr ht), ?_, ?_, ?_⟩
    · unfold expected_actions
      split
      · simp
      · split <;> simp
    · simp [expected_actions, first_exit_action, h0]
    · intro hd
      simp [expected_actions, hd]

/-- Witness for C9: on shell 0 a task exit without current task, a notification that
does not unpack, then a task exit with task info 7 followed by two more invocations:
only the event for 7 is posted. -/
theorem doom_first_exit_once_witness :
    (doom_run ⟨0, false⟩
      [DoomEvent.task_exit false (some 1), DoomEvent.notify none,
        DoomEvent.task_exit true (some 7), DoomEvent.notify (some 8),
        DoomEvent.task_exit true (some 9)]).map Prod.snd = some [DoomAction.doom_post 7] := by
  obtain ⟨doom1, acts, hrun, _, hacts, _⟩ := (doom_first_exit_once ⟨0, false⟩
    [DoomEvent.task_exit false (some 1), DoomEvent.notify none,
      DoomEvent.task_exit true (some 7), DoomEvent.notify (some 8),
      DoomEvent.task_exit true (some 9)]).1 rfl
  rw [hrun, hacts]
  rfl

end Flux
